import Mathlib

/-!
# Verification of the roguelike game core (`src/roguelike-dev.js`)

A shallow embedding of the final-snapshot game core: the entity model,
the sparse tile map, the turn/combat/AI pipeline and the save/load codec,
with theorems checking the natural-language specification against it.

Conventions of the embedding:
* JS objects become Lean structures; absent (`undefined`) fields become
  `Option`.  JS numbers that are always integers in the source become
  `Int`/`Nat`; the fractional visibility values of the shadowcasting
  engine become `ℚ`.
* The global `entities` Map (insertion ordered, keyed by each entity's
  own `id`) becomes a `List Entity`; `entities.get(id)` becomes `lookup`
  (first entity with that id) and in-place mutation becomes `update`.
* Code that can throw (`throw` statements, and property accesses on
  `undefined` such as `tileMap.get(x,y).walkable` on an absent tile)
  returns `Except String`; the error string names the failure.
* The ROT.js library is external to the repository: its uniform-integer
  draws are modelled by a stream of externally supplied values
  (`Rng`/`randint`), and its shadowcasting light maps are taken as
  parameters (`LightMap`) by the functions that consume them.
-/

/-- `location` of an entity (`src/roguelike-dev.js` schema comment):
on the map at `{x, y}`, in an inventory slot `{carried_by, slot}`, or in
an equipment slot `{equipped_by, slot}`. -/
inductive Location where
  | onMap (x y : Int)
  | carried (owner : Nat) (slot : Nat)
  | equipped (owner : Nat) (slot : Nat)
deriving DecidableEq, Repr

/-- `NOWHERE = {x: -1, y: -1}`, the off-map sentinel. -/
def NOWHERE : Location := .onMap (-1) (-1)

/-- Is this location an on-map coordinate?  Mirrors the JS test
`entity.location.x !== undefined`. -/
def Location.isOnMap : Location → Bool
  | .onMap _ _ => true
  | _ => false

/-- The monster `ai` field: `{behavior: 'move_to_player'}` or
`{behavior: 'confused', turns: n}`. -/
inductive AI where
  | moveToPlayer
  | confused (turns : Int)
deriving DecidableEq, Repr

/-- The keys of `ENTITY_PROPERTIES`. -/
inductive EntityType where
  | player | stairs | troll | orc | corpse
  | healingPotion | lightningScroll | fireballScroll | confusionScroll
  | dagger | sword | towel | shield
deriving DecidableEq, Repr

/-- `EQUIP_MAIN_HAND = 0`. -/
def EQUIP_MAIN_HAND : Nat := 0

/-- `EQUIP_OFF_HAND = 1`. -/
def EQUIP_OFF_HAND : Nat := 1

/-- One record of `ENTITY_PROPERTIES`: the static per-type properties,
looked up through the prototype getters by the *current* `type`.
A bonus field the record does not declare reads as `undefined` and every
consumer applies `|| 0`, so missing and `0` coincide; the bonus fields
are therefore plain `Int` defaulting to `0`.  No type declares
`bonus_max_hp`, so that field is always `0`. -/
structure TypeProps where
  blocks : Bool := false
  item : Bool := false
  stairs : Bool := false
  equipment_slot : Option Nat := none
  render_order : Nat
  xp_award : Option Nat := none
  bonus_power : Int := 0
  bonus_defense : Int := 0
  bonus_max_hp : Int := 0
deriving DecidableEq, Repr

/-- The `ENTITY_PROPERTIES` table. -/
def props : EntityType → TypeProps
  | .player => { blocks := true, render_order := 5 }
  | .stairs => { stairs := true, render_order := 1 }
  | .troll => { blocks := true, render_order := 3, xp_award := some 100 }
  | .orc => { blocks := true, render_order := 3, xp_award := some 35 }
  | .corpse => { render_order := 0 }
  | .healingPotion => { item := true, render_order := 2 }
  | .lightningScroll => { item := true, render_order := 2 }
  | .fireballScroll => { item := true, render_order := 2 }
  | .confusionScroll => { item := true, render_order := 2 }
  | .dagger => { item := true, equipment_slot := some EQUIP_MAIN_HAND, render_order := 2,
                 bonus_power := 0 }
  | .sword => { item := true, equipment_slot := some EQUIP_MAIN_HAND, render_order := 2,
                bonus_power := 3 }
  | .towel => { item := true, equipment_slot := some EQUIP_OFF_HAND, render_order := 2,
                bonus_defense := 0 }
  | .shield => { item := true, equipment_slot := some EQUIP_OFF_HAND, render_order := 2,
                 bonus_defense := 1 }

/-- The display name a fresh entity gets (`entity.name = type`). -/
def typeName : EntityType → String
  | .player => "player"
  | .stairs => "stairs"
  | .troll => "troll"
  | .orc => "orc"
  | .corpse => "corpse"
  | .healingPotion => "healing potion"
  | .lightningScroll => "lightning scroll"
  | .fireballScroll => "fireball scroll"
  | .confusionScroll => "confusion scroll"
  | .dagger => "dagger"
  | .sword => "sword"
  | .towel => "towel"
  | .shield => "shield"

/-- A game entity: the per-instance mutable fields laid over the static
per-type record.  `inventory`/`equipment` are the fixed-capacity slot
arrays of `null | id`. -/
structure Entity where
  id : Nat
  type : EntityType
  name : String
  location : Location
  hp : Option Int := none
  base_max_hp : Option Int := none
  base_power : Option Int := none
  base_defense : Option Int := none
  xp : Option Nat := none
  level : Option Nat := none
  inventory : Option (List (Option Nat)) := none
  equipment : Option (List (Option Nat)) := none
  ai : Option AI := none
  dead : Bool := false
deriving DecidableEq, Repr

/-- A message-log line: `[text, className]`. -/
abbrev Msg := String × String

/-- The global `entities` Map: a list in insertion order, keyed by the
intrinsic `id` of each entry. -/
abbrev Store := List Entity

/-- `entities.get(id)`. -/
def lookup (s : Store) (id : Nat) : Option Entity :=
  s.find? (fun e => e.id == id)

/-- In-place mutation of the entity with the given id. -/
def update (s : Store) (id : Nat) (f : Entity → Entity) : Store :=
  s.map (fun e => if e.id == id then f e else e)

/-- `calculateEquipmentBonus(equipment, field)`: 0 when the slot array is
absent, otherwise the sum over non-null slots of the occupant's bonus
field (`entities.get(id)[field] || 0`; a dangling id, impossible under
the slot invariant, contributes 0). -/
def calculateEquipmentBonus (s : Store) (equipment : Option (List (Option Nat)))
    (field : TypeProps → Int) : Int :=
  match equipment with
  | none => 0
  | some eq =>
    (eq.filterMap id).foldl
      (fun sum i => sum + (((lookup s i).map (fun e => field (props e.type))).getD 0)) 0

/-- `entity.effective_power = base_power + increased_power`. -/
def effective_power (s : Store) (e : Entity) : Int :=
  e.base_power.getD 0 + calculateEquipmentBonus s e.equipment (fun p => p.bonus_power)

/-- `entity.effective_defense = base_defense + increased_defense`. -/
def effective_defense (s : Store) (e : Entity) : Int :=
  e.base_defense.getD 0 + calculateEquipmentBonus s e.equipment (fun p => p.bonus_defense)

/-- `entity.effective_max_hp = base_max_hp + increased_max_hp`. -/
def effective_max_hp (s : Store) (e : Entity) : Int :=
  e.base_max_hp.getD 0 + calculateEquipmentBonus s e.equipment (fun p => p.bonus_max_hp)

/-- `allEntitiesAt(x, y)`: entities whose location is exactly `(x, y)`. -/
def allEntitiesAt (s : Store) (x y : Int) : List Entity :=
  s.filter (fun e => e.location == .onMap x y)

/-- `itemEntityAt(x, y)`: the first item at `(x, y)`, or none. -/
def itemEntityAt (s : Store) (x y : Int) : Option Entity :=
  ((allEntitiesAt s x y).filter (fun e => (props e.type).item)).head?

/-- `blockingEntityAt(x, y)`: the blocking entity at `(x, y)`; more than
one is a thrown invariant violation. -/
def blockingEntityAt (s : Store) (x y : Int) : Except String (Option Entity) :=
  let bs := (allEntitiesAt s x y).filter (fun e => (props e.type).blocks)
  if bs.length > 1 then .error "invalid: more than one blocking entity"
  else .ok bs.head?

/-- `moveEntityTo(entity, location)`.  If the entity is currently in a
carried slot, that slot is cleared (throws when the carrier's slot does
not hold this entity); the location field is then set; if the new
location is a carried slot, the carrier must have an inventory whose
slot is empty (throws otherwise) and the slot is filled.  Locations of
the `equipped_by` kind pass through both `carried_by` tests, exactly as
in the source (whose comment marks them "valid but NOT allowed here").
`moveEntityFill` is the trailing slot-filling step. -/
def moveEntityFill (s : Store) (eid : Nat) (loc : Location) : Except String Store :=
  match loc with
  | .carried owner slot =>
    match lookup s owner with
    | none => .error "invalid: moving to a missing entity"
    | some carrier =>
      match carrier.inventory with
      | none => .error "invalid: moving to an entity without inventory"
      | some inv =>
        match inv.get? slot with
        | some none =>
          .ok (update s owner (fun c => { c with inventory := some (inv.set slot (some eid)) }))
        | _ => .error "invalid: inventory already contains an item"
  | _ => .ok s

/-- The body of `moveEntityTo` once the entity has been read: clear the
old carried slot, set the location field, fill the new carried slot. -/
def moveEntityCore (s : Store) (eid : Nat) (oldLoc loc : Location) : Except String Store :=
  match oldLoc with
  | .carried owner slot =>
    match (lookup s owner).bind (fun c => c.inventory) with
    | none => .error "invalid: carrier has no inventory"
    | some inv =>
      if inv.get? slot = some (some eid) then
        moveEntityFill
          (update (update s owner (fun c => { c with inventory := some (inv.set slot none) }))
            eid (fun e => { e with location := loc }))
          eid loc
      else .error "invalid: inventory slot should contain the entity"
  | _ => moveEntityFill (update s eid (fun e => { e with location := loc })) eid loc

def moveEntityTo (s : Store) (eid : Nat) (loc : Location) : Except String Store :=
  match lookup s eid with
  | none => .error "invalid: moveEntityTo of a missing entity"
  | some e => moveEntityCore s eid e.location loc

/-- The sparse string-keyed dictionary of `createMap()`, with `(x,y)`
keys.  `set` on an existing key overwrites in place; on a fresh key it
appends (JS objects keep insertion order). -/
structure SMap (α : Type) where
  entries : List ((Int × Int) × α)
deriving DecidableEq, Repr

/-- The empty map. -/
def SMap.empty {α : Type} : SMap α := ⟨[]⟩

/-- `map.get(x, y)`: `undefined` (none) when the key is absent. -/
def SMap.get {α : Type} (m : SMap α) (x y : Int) : Option α :=
  (m.entries.find? (fun kv => kv.1 == (x, y))).map (fun kv => kv.2)

/-- `map.set(x, y, value)`. -/
def SMap.set {α : Type} (m : SMap α) (x y : Int) (v : α) : SMap α :=
  if (m.entries.find? (fun kv => kv.1 == (x, y))).isSome then
    ⟨m.entries.map (fun kv => if kv.1 == (x, y) then ((x, y), v) else kv)⟩
  else ⟨m.entries ++ [((x, y), v)]⟩

/-- `map.has(x, y)`. -/
def SMap.has {α : Type} (m : SMap α) (x y : Int) : Bool :=
  (m.get x y).isSome

/-- One tile record: `{walkable, wall, explored}`. -/
structure Tile where
  walkable : Bool
  wall : Bool
  explored : Bool
deriving DecidableEq, Repr

/-- One room of the digger's output, with the center `getCenter()`
returns.  The digger itself is part of the external ROT.js library, so
rooms arrive as data. -/
structure Room where
  left : Int
  right : Int
  top : Int
  bottom : Int
  cx : Int
  cy : Int
deriving DecidableEq, Repr

/-- The dungeon map: the sparse tile grid plus the fields `createTileMap`
stores on it.  The `fov` member is a function object of the external
shadowcasting engine, dropped by `JSON.stringify` and rebuilt by
`updateTileMapFov` after every load, so it is not part of the data. -/
structure TileMap where
  values : SMap Tile
  dungeonLevel : Nat
  rooms : List Room
deriving DecidableEq, Repr

/-- A light map: per-tile visibility fraction in `[0, 1]` as computed by
the external `ROT.FOV.PreciseShadowcasting` engine. -/
abbrev LightMap := SMap ℚ

/-- `lightMap.get(x, y) > 0.0` — false when the tile has no entry
(`undefined > 0` is false in JS). -/
def isLit (lm : LightMap) (x y : Int) : Bool :=
  match lm.get x y with
  | some v => decide (0 < v)
  | none => false

/-- Squared euclidean distance between two on-map points.  The source
compares `Math.hypot(dx, dy) <= r` on integer coordinates; for the
integer radii used (3 and 5) that comparison is exact and equivalent to
`dx*dx + dy*dy <= r*r`. -/
def distSq (ax ay bx bY : Int) : Int :=
  (ax - bx) * (ax - bx) + (ay - bY) * (ay - bY)

/-- `ROT.Util.clamp(val, min, max)`. -/
def clamp (v lo hi : Int) : Int :=
  if v < lo then lo else if v > hi then hi else v

/-- The external seeded random source, modelled as a stream of draws it
will produce; an exhausted stream keeps yielding 0.  All theorems
quantify over the stream, so no distribution is assumed. -/
structure Rng where
  stream : List Int
deriving DecidableEq, Repr

/-- Pop the next externally drawn value. -/
def Rng.next : Rng → Int × Rng
  | ⟨[]⟩ => (0, ⟨[]⟩)
  | ⟨v :: rest⟩ => (v, ⟨rest⟩)

/-- `randint(lo, hi)` (`ROT.RNG.getUniformInt`): a uniform draw in
`[lo, hi]`; the supplied stream value is used when it lies in range and
coerced to `lo` otherwise. -/
def randint (lo hi : Int) (r : Rng) : Int × Rng :=
  let (v, r') := r.next
  (if lo ≤ v ∧ v ≤ hi then v else lo, r')

/-- `evaluateStepFunction(table, x)`: the `y` of the last `[x0, y]` entry
with `x >= x0`, default 0. -/
def evaluateStepFunction (table : List (Nat × Nat)) (x : Nat) : Nat :=
  let candidates := table.filter (fun xy => x ≥ xy.1)
  ((candidates.getLast?).map (fun xy => xy.2)).getD 0

/-- Walk a weight table with a value in `[0, total)`. -/
def pickWeighted : List (EntityType × Nat) → Nat → Option EntityType
  | [], _ => none
  | (t, w) :: rest, u => if u < w then some t else pickWeighted rest (u - w)

/-- `ROT.RNG.getWeightedValue(table)`: an external draw reduced into
`[0, total weight)` selects an entry. -/
def getWeightedValue (table : List (EntityType × Nat)) (r : Rng) : Option EntityType × Rng :=
  let (v, r') := r.next
  let total := (table.map (fun tw => tw.2)).sum
  if total = 0 then (none, r') else (pickWeighted table (v.toNat % total), r')

/-- `xpForLevel(level) = 200 * level + 150 * (level * (level+1)) / 2`. -/
def xpForLevel (level : Nat) : Nat :=
  200 * level + 150 * (level * (level + 1)) / 2

/-- The xp threshold strictly grows with the level (termination measure
of the level-up loop). -/
def xpForLevel_lt_succ : ∀ level : Nat, xpForLevel level < xpForLevel (level + 1) :=
  fun level => by
    unfold xpForLevel
    have h2 : level * (level + 1) ≤ (level + 1) * (level + 1 + 1) := by nlinarith
    have h3 : 150 * (level * (level + 1)) / 2 ≤ 150 * ((level + 1) * (level + 1 + 1)) / 2 :=
      Nat.div_le_div_right (Nat.mul_le_mul_left 150 h2)
    omega

/-- The `while (entity.xp > xpForLevel(entity.level))` loop of `gainXp`:
raises the level once per threshold exceeded, printing one level-up
message (and opening the upgrade overlay) per iteration.  Returns the
final level and the level-up messages in order. -/
def levelUpLoop (xp level : Nat) : Nat × List Msg :=
  if xp > xpForLevel level then
    ((levelUpLoop xp (level + 1)).1,
     ("Your battle skills grow stronger! You reached level " ++ toString (level + 1) ++ "!",
      "warning") :: (levelUpLoop xp (level + 1)).2)
  else (level, [])
termination_by xp - xpForLevel level
decreasing_by
  all_goals exact Nat.sub_lt_sub_left (by omega) (xpForLevel_lt_succ level)

/-- `gainXp(entity, amount)`: a no-op for entities without an `xp` field,
a thrown error for a non-player entity with one, and for the player the
xp grant plus the level-up loop. -/
def gainXp (s : Store) (playerId sourceId : Nat) (amount : Nat) :
    Except String (Store × List Msg) :=
  match lookup s sourceId with
  | none => .ok (s, [])
  | some e =>
    match e.xp with
    | none => .ok (s, [])
    | some xp =>
      if e.id ≠ playerId then .error "XP for non-player not implemented"
      else
        .ok (update s sourceId (fun e0 =>
               { e0 with xp := some (xp + amount),
                         level := some (levelUpLoop (xp + amount) (e.level.getD 0)).1 }),
             ("You gain " ++ toString amount ++ " experience points.", "info") ::
               (levelUpLoop (xp + amount) (e.level.getD 0)).2)

/-- The xp award of a type, via the prototype getter. -/
def xpAward (t : EntityType) : Option Nat := (props t).xp_award

/-- The in-place death mutation of `takeDamage`: set `dead`, retype to
`corpse`, rename, strip `ai`. -/
def corpsify (s : Store) (targetId : Nat) : Store :=
  update s targetId (fun t =>
    { t with dead := true, type := .corpse, name := t.name ++ "\x27s corpse", ai := none })

/-- The opening mutation of `takeDamage`: `target.hp -= amount`. -/
def damageHp (s : Store) (targetId : Nat) (amount : Int) : Store :=
  update s targetId (fun t => { t with hp := t.hp.map (fun h => h - amount) })

/-- `takeDamage(source, target, amount)`: subtract `amount` from the
target's hp; when the result is `<= 0`, print the death message, award
xp to the source when the target's type defines an award, and mutate the
target in place into a corpse. -/
def takeDamage (s : Store) (playerId sourceId targetId : Nat) (amount : Int) :
    Except String (Store × List Msg) :=
  match lookup (damageHp s targetId amount) targetId with
  | none => .ok (damageHp s targetId amount, [])
  | some t =>
    match t.hp with
    | some h =>
      if h ≤ 0 then
        let dieMsg : Msg := (t.name ++ " dies!",
          if t.id == playerId then "player-die" else "enemy-die")
        match xpAward t.type with
        | some award =>
          match gainXp (damageHp s targetId amount) playerId sourceId award with
          | .error msg => .error msg
          | .ok (s2, xpMsgs) => .ok (corpsify s2 targetId, dieMsg :: xpMsgs)
        | none => .ok (corpsify (damageHp s targetId amount) targetId, dieMsg :: [])
      else .ok (damageHp s targetId amount, [])
    | none => .ok (damageHp s targetId amount, [])

/-- `attack(attacker, defender)`: damage is effective power minus
effective defense; positive damage is applied through `takeDamage`,
non-positive damage only prints the no-damage message. -/
def attack (s : Store) (playerId attackerId defenderId : Nat) :
    Except String (Store × List Msg) :=
  match lookup s attackerId, lookup s defenderId with
  | some a, some d =>
    let damage := effective_power s a - effective_defense s d
    let color := if a.id == playerId then "player-attack" else "enemy-attack"
    if damage > 0 then
      match takeDamage s playerId attackerId defenderId damage with
      | .error msg => .error msg
      | .ok (s2, ms) =>
        .ok (s2, (a.name ++ " attacks " ++ d.name ++ " for " ++ toString damage ++
          " hit points.", color) :: ms)
    else
      .ok (s, [(a.name ++ " attacks " ++ d.name ++ " but does no damage.", color)])
  | _, _ => .error "attack: missing entity"

/-- The area-of-effect candidates of `castFireball`: every entity that is
on the map, has hp, is not dead, is visible from the target point and
from the caster, and lies within range 3 of the point.  The caster is
not filtered out.  `visCaster`/`visPoint` are the light maps the source
computes from the caster's location and from `(x, y)`. -/
def fireballTargets (s : Store) (visCaster visPoint : LightMap) (x y : Int) : List Entity :=
  s.filter (fun e =>
    match e.location with
    | .onMap ex ey =>
      e.hp.isSome && !e.dead && isLit visPoint ex ey && isLit visCaster ex ey &&
        decide (distSq ex ey x y ≤ 3 * 3)
    | _ => false)

/-- One step of the fireball's damage loop: print the burn message and
apply 25 damage to one target. -/
def fireballBurn (playerId casterId : Nat) (acc : Store × List Msg) (tgt : Entity) :
    Except String (Store × List Msg) :=
  match takeDamage acc.1 playerId casterId tgt.id 25 with
  | .error msg => .error msg
  | .ok (s2, ms) =>
    .ok (s2, acc.2 ++ ("The " ++ tgt.name ++ " gets burned for 25 hit points.",
      "player-attack") :: ms)

/-- `castFireball(caster, x, y)`: refuse a target point outside the
caster's field of view, otherwise burn every candidate for 25 through
`takeDamage`.  Returns whether the scroll was used, with the state and
the printed messages. -/
def castFireball (s : Store) (playerId casterId : Nat) (visCaster visPoint : LightMap)
    (x y : Int) : Except String (Bool × Store × List Msg) :=
  if !(isLit visCaster x y) then
    .ok (false, s, [("You cannot target a tile outside your field of view.", "warning")])
  else
    match (fireballTargets s visCaster visPoint x y).foldlM (fireballBurn playerId casterId)
        (s, [("The fireball explodes, burning everything within 3 tiles!", "player-attack")]) with
    | .error msg => .error msg
    | .ok (s2, ms) => .ok (true, s2, ms)

/-- The candidate targets of `castLighting`: every entity *other than the
caster* that is on the map, has hp, is not dead, is visible to the
caster and within range 5 of the caster at `(cx, cy)`. -/
def lightningTargets (s : Store) (casterId : Nat) (visCaster : LightMap) (cx cy : Int) :
    List Entity :=
  s.filter (fun e =>
    e.id ≠ casterId &&
    match e.location with
    | .onMap ex ey =>
      e.hp.isSome && !e.dead && isLit visCaster ex ey &&
        decide (distSq ex ey cx cy ≤ 5 * 5)
    | _ => false)

/-- The head of the candidates after the stable sort by distance to the
caster: the first candidate (in store order) at minimal distance. -/
def selectMin (l : List Entity) (key : Entity → Int) : Option Entity :=
  l.foldl (fun best e =>
    match best with
    | none => some e
    | some b => if key e < key b then some e else some b) none

/-- `castLighting(caster)`: strike the nearest candidate for 40, or fail
softly when there is none. -/
def castLighting (s : Store) (playerId casterId : Nat) (visCaster : LightMap) (cx cy : Int) :
    Except String (Bool × Store × List Msg) :=
  match selectMin (lightningTargets s casterId visCaster cx cy)
      (fun e => match e.location with | .onMap ex ey => distSq ex ey cx cy | _ => 0) with
  | none => .ok (false, s, [("No enemy is close enough to strike.", "error")])
  | some target =>
    match takeDamage s playerId casterId target.id 40 with
    | .error msg => .error msg
    | .ok (s2, ms) =>
      .ok (true, s2, ("A lighting bolt strikes the " ++ target.name ++
        " with a loud thunder! The damage is 40", "player-attack") :: ms)

/-- `castConfusion(caster, x, y)`: refuse a point outside the caster's
field of view; otherwise, when the blocking entity at the point is a
live, damageable entity with an `ai`, replace its behavior with
`{behavior: 'confused', turns: 10}`. -/
def castConfusion (s : Store) (visCaster : LightMap) (x y : Int) :
    Except String (Bool × Store × List Msg) :=
  if !(isLit visCaster x y) then
    .ok (false, s, [("You cannot target a tile outside your field of view.", "warning")])
  else
    match blockingEntityAt s x y with
    | .error msg => .error msg
    | .ok (some t) =>
      if t.hp.isSome && !t.dead && t.ai.isSome then
        let s := update s t.id (fun e => { e with ai := some (.confused 10) })
        Except.ok (true, s,
          [("The eyes of the " ++ t.name ++
            " look vacant, as it starts to stumble around!", "enemy-die")])
      else
        Except.ok (false, s, [("There is no targetable enemy at that location.", "warning")])
    | .ok none =>
      .ok (false, s, [("There is no targetable enemy at that location.", "warning")])

/-- `playerPickupItem()`.  The returned `Bool` records whether
`enemiesMove()` runs afterwards (only on a successful pickup). -/
def playerPickupItem (s : Store) (playerId : Nat) :
    Except String (Store × List Msg × Bool) :=
  match lookup s playerId with
  | none => .error "invalid: no player"
  | some p =>
    match p.location with
    | .onMap px py =>
      match itemEntityAt s px py with
      | none => .ok (s, [("There is nothing here to pick up.", "warning")], false)
      | some item =>
        match p.inventory with
        | none => .error "TypeError: player has no inventory"
        | some inv =>
          match inv.findIdx? (fun slot => slot == none) with
          | none =>
            .ok (s, [("You cannot carry any more. Your inventory is full.", "warning")], false)
          | some slot =>
            match moveEntityTo s item.id (.carried playerId slot) with
            | .error msg => .error msg
            | .ok s2 =>
              .ok (s2, [("You pick up the " ++ item.name ++ "!", "pick-up")], true)
    | _ => .error "invalid: player not on map"

/-- `playerMoveBy(dx, dy)`.  The destination tile is read with
`tileMap.get(x, y).walkable`: an absent tile record makes that property
access fault (reading `walkable` of `undefined`), which the embedding
reports as an error.  The returned `Bool` records whether
`enemiesMove()` runs afterwards. -/
def playerMoveBy (s : Store) (tm : SMap Tile) (playerId : Nat) (dx dy : Int) :
    Except String (Store × List Msg × Bool) :=
  match lookup s playerId with
  | none => .error "invalid: no player"
  | some p =>
    match p.location with
    | .onMap px py =>
      let x := px + dx
      let y := py + dy
      match tm.get x y with
      | none => .error "TypeError: cannot read walkable of undefined"
      | some tile =>
        if tile.walkable then
          match blockingEntityAt s x y with
          | .error msg => .error msg
          | .ok (some t) =>
            if t.id ≠ playerId then
              match attack s playerId playerId t.id with
              | .error msg => .error msg
              | .ok (s2, ms) => .ok (s2, ms, true)
            else
              match moveEntityTo s playerId (.onMap x y) with
              | .error msg => .error msg
              | .ok s2 => .ok (s2, [], true)
          | .ok none =>
            match moveEntityTo s playerId (.onMap x y) with
            | .error msg => .error msg
            | .ok s2 => .ok (s2, [], true)
        else .ok (s, [], false)
    | _ => .error "invalid: player not on map"

/-- The extra per-instance fields `createEntity` receives from
`populateRoom` (`monsterProps`, or nothing for items). -/
structure ExtraProps where
  base_max_hp : Option Int := none
  base_defense : Option Int := none
  base_power : Option Int := none
  ai : Option AI := none
deriving DecidableEq, Repr

/-- `createEntity(type, location, properties)` as the generation code
uses it (on-map placement): allocate the next id, lay the extra fields
over the type, default `hp` to `base_max_hp`, and append the entity to
the store.  Returns the store and the advanced id counter. -/
def createEntity (s : Store) (nextId : Nat) (ty : EntityType) (loc : Location)
    (extra : ExtraProps) : Store × Nat :=
  let id := nextId + 1
  let e : Entity :=
    { id := id, type := ty, name := typeName ty, location := loc,
      base_max_hp := extra.base_max_hp, base_defense := extra.base_defense,
      base_power := extra.base_power, ai := extra.ai, hp := extra.base_max_hp }
  (s ++ [e], id)

/-- The `monsterProps` table of `populateRoom`. -/
def monsterProps : EntityType → ExtraProps
  | .orc => { base_max_hp := some 20, base_defense := some 0, base_power := some 4,
              ai := some .moveToPlayer }
  | .troll => { base_max_hp := some 30, base_defense := some 2, base_power := some 8,
                ai := some .moveToPlayer }
  | _ => {}

/-- One iteration of the monster loop of `populateRoom`. -/
def monsterLoopStep (room : Room) (chances : List (EntityType × Nat))
    (acc : Store × Nat × Rng) (_ : Nat) : Except String (Store × Nat × Rng) :=
  let s := acc.1
  let nextId := acc.2.1
  let xr := randint room.left room.right acc.2.2
  let yr := randint room.top room.bottom xr.2
  match blockingEntityAt s xr.1 yr.1 with
  | .error msg => .error msg
  | .ok (some _) => .ok (s, nextId, yr.2)
  | .ok none =>
    match getWeightedValue chances yr.2 with
    | (none, _) => .error "TypeError: no weighted value"
    | (some ty, r2) =>
      .ok ((createEntity s nextId ty (.onMap xr.1 yr.1) (monsterProps ty)).1,
           (createEntity s nextId ty (.onMap xr.1 yr.1) (monsterProps ty)).2, r2)

/-- One iteration of the item loop of `populateRoom`. -/
def itemLoopStep (room : Room) (chances : List (EntityType × Nat))
    (acc : Store × Nat × Rng) (_ : Nat) : Except String (Store × Nat × Rng) :=
  let s := acc.1
  let nextId := acc.2.1
  let xr := randint room.left room.right acc.2.2
  let yr := randint room.top room.bottom xr.2
  if (allEntitiesAt s xr.1 yr.1).length = 0 then
    match getWeightedValue chances yr.2 with
    | (none, _) => .error "TypeError: no weighted value"
    | (some ty, r2) =>
      .ok ((createEntity s nextId ty (.onMap xr.1 yr.1) {}).1,
           (createEntity s nextId ty (.onMap xr.1 yr.1) {}).2, r2)
  else .ok (s, nextId, yr.2)

/-- `populateRoom(room, dungeonLevel)`: roll a level-scaled count of
monsters and of items, and place each on a tile free of a blocking
entity (monsters) or of any entity (items), choosing types by the
level-gated weighted tables. -/
def populateRoom (room : Room) (dungeonLevel : Nat) (s : Store) (nextId : Nat) (r : Rng) :
    Except String (Store × Nat × Rng) :=
  let maxMonstersPerRoom := evaluateStepFunction [(1, 2), (4, 3), (6, 5)] dungeonLevel
  let maxItemsPerRoom := evaluateStepFunction [(1, 1), (4, 2)] dungeonLevel
  let monsterChances : List (EntityType × Nat) :=
    [(.orc, 80), (.troll, evaluateStepFunction [(3, 15), (5, 30), (7, 60)] dungeonLevel)]
  let itemChances : List (EntityType × Nat) :=
    [(.healingPotion, 70),
     (.lightningScroll, evaluateStepFunction [(4, 25)] dungeonLevel),
     (.fireballScroll, evaluateStepFunction [(6, 25)] dungeonLevel),
     (.confusionScroll, evaluateStepFunction [(2, 10)] dungeonLevel),
     (.sword, evaluateStepFunction [(4, 5)] dungeonLevel),
     (.shield, evaluateStepFunction [(8, 15)] dungeonLevel)]
  let mr := randint 0 (maxMonstersPerRoom : Int) r
  match (List.range mr.1.toNat).foldlM (monsterLoopStep room monsterChances)
      (s, nextId, mr.2) with
  | .error msg => .error msg
  | .ok acc =>
    let ir := randint 0 (maxItemsPerRoom : Int) acc.2.2
    (List.range ir.1.toNat).foldlM (itemLoopStep room itemChances) (acc.1, acc.2.1, ir.2)

/-- The digger's output for one level: the external `ROT.Map.Digger`
calls back with per-tile contents (0 dug, 1 wall) and enumerates rooms. -/
structure DiggerOutput where
  tiles : List ((Int × Int) × Nat)
  rooms : List Room
deriving DecidableEq, Repr

/-- `createTileMap(dungeonLevel)` with the digger's output supplied as
data: build the tile grid, put the player at the first room's center,
put stairs at the last room's center, and populate every room.
(`updateTileMapFov` only rebuilds the external fov object.) -/
def createTileMapM (dig : DiggerOutput) (dungeonLevel : Nat) (playerId : Nat) (s : Store)
    (nextId : Nat) (r : Rng) : Except String (TileMap × Store × Nat × Rng) :=
  let values := dig.tiles.foldl (fun (m : SMap Tile) tc =>
    m.set tc.1.1 tc.1.2
      { walkable := tc.2 == 0, wall := tc.2 == 1, explored := false }) SMap.empty
  match dig.rooms.head?, dig.rooms.getLast? with
  | some r0, some rLast =>
    match moveEntityTo s playerId (.onMap r0.cx r0.cy) with
    | .error msg => .error msg
    | .ok s1 =>
      let cr := createEntity s1 nextId .stairs (.onMap rLast.cx rLast.cy) {}
      match dig.rooms.foldlM
          (fun (acc : Store × Nat × Rng) room =>
            populateRoom room dungeonLevel acc.1 acc.2.1 acc.2.2)
          (cr.1, cr.2, r) with
      | .error msg => .error msg
      | .ok acc =>
        .ok ({ values := values, dungeonLevel := dungeonLevel, rooms := dig.rooms },
             acc.1, acc.2.1, acc.2.2)
  | _, _ => .error "TypeError: no rooms"

/-- `playerGoDownStairs()`: refuse without a stairs entity underfoot;
otherwise delete every on-map entity except the player, rebuild the
dungeon one level deeper, and heal the player by half of effective max
hp, clamped into `[0, effective max hp]`.  `healAfterDescent` is the
final healing step, named so the two parts can be reasoned about
separately. -/
def healAfterDescent (s2 : Store) (playerId : Nat) : Store :=
  let eff := match lookup s2 playerId with
    | some p2 => effective_max_hp s2 p2
    | none => 0
  update s2 playerId (fun e =>
    { e with hp := e.hp.map (fun h => clamp (h + eff / 2) 0 eff) })

def playerGoDownStairs (dig : DiggerOutput) (s : Store) (tm : TileMap) (playerId : Nat)
    (nextId : Nat) (r : Rng) :
    Except String (Store × TileMap × Nat × Rng × List Msg) :=
  match lookup s playerId with
  | none => .error "invalid: no player"
  | some p =>
    match p.location with
    | .onMap px py =>
      if (allEntitiesAt s px py).any (fun e => (props e.type).stairs) then
        match createTileMapM dig (tm.dungeonLevel + 1) playerId
            (s.filter (fun e => e.id == playerId || !e.location.isOnMap)) nextId r with
        | .error msg => .error msg
        | .ok (tm2, s2, nextId2, r2) =>
          .ok (healAfterDescent s2 playerId, tm2, nextId2, r2,
               [("You take a moment to rest, and recover your strength.", "welcome")])
      else
        .ok (s, tm, nextId, r, [("There are no stairs here.", "warning")])
    | _ => .error "invalid: player not on map"

/-- One entity's turn inside `enemiesMove()`: the body of the loop for a
single entity.  `lm` is the light map computed from the player's
location at the start of the phase; `tm` is the current tile grid.
Dead, off-map and ai-less entities are skipped.  A `move_to_player`
entity standing on an unlit tile is skipped before anything else is
read.  Otherwise it steps one tile toward the player along a randomly
weighted axis (`dx/|dx|` is `Int.sign dx`; the source divides and the
two agree whenever the offset is nonzero), attacking when the step
lands on the player.  A `confused` entity first decrements its `turns`
in place, then either makes a random 8-neighborhood step or, when the
counter has run out, reverts to `move_to_player` with the recovery
message. -/
def enemyTurn (tm : SMap Tile) (lm : LightMap) (playerId : Nat) (s : Store) (r : Rng)
    (eid : Nat) : Except String (Store × Rng × List Msg) :=
  match lookup s eid with
  | none => .ok (s, r, [])
  | some e =>
    if e.dead then .ok (s, r, []) else
    match e.location with
    | .onMap ex ey =>
      match e.ai with
      | none => .ok (s, r, [])
      | some .moveToPlayer =>
        if !(isLit lm ex ey) then .ok (s, r, [])
        else
          match lookup s playerId with
          | none => .error "TypeError: no player"
          | some pl =>
            match pl.location with
            | .onMap px py =>
              let dx := px - ex
              let dy := py - ey
              let (v, r) := randint 1 ((dx.natAbs : Int) + (dy.natAbs : Int)) r
              let (stepx, stepy) :=
                if v ≤ (dx.natAbs : Int) then (Int.sign dx, 0) else (0, Int.sign dy)
              let x := ex + stepx
              let y := ey + stepy
              match tm.get x y with
              | none => .error "TypeError: cannot read walkable of undefined"
              | some tile =>
                if tile.walkable then
                  match blockingEntityAt s x y with
                  | .error msg => .error msg
                  | .ok (some b) =>
                    if b.id == playerId then
                      match attack s playerId eid playerId with
                      | .error msg => .error msg
                      | .ok (s2, ms) => .ok (s2, r, ms)
                    else .ok (s, r, [])
                  | .ok none =>
                    match moveEntityTo s eid (.onMap x y) with
                    | .error msg => .error msg
                    | .ok s2 => .ok (s2, r, [])
                else .ok (s, r, [])
            | _ => .error "TypeError: player not on map"
      | some (.confused n) =>
        let s1 := update s eid (fun e => { e with ai := some (.confused (n - 1)) })
        if n - 1 > 0 then
          let sxr := randint (-1) 1 r
          let syr := randint (-1) 1 sxr.2
          let x := ex + sxr.1
          let y := ey + syr.1
          match tm.get x y with
          | none => .error "TypeError: cannot read walkable of undefined"
          | some tile =>
            if tile.walkable then
              match blockingEntityAt s1 x y with
              | .error msg => .error msg
              | .ok none =>
                match moveEntityTo s1 eid (.onMap x y) with
                | .error msg => .error msg
                | .ok s2 => .ok (s2, syr.2, [])
              | .ok (some _) => .ok (s1, syr.2, [])
            else .ok (s1, syr.2, [])
        else
          .ok (update s1 eid (fun e => { e with ai := some .moveToPlayer }), r,
               [("The " ++ e.name ++ " is no longer confused!", "enemy-attack")])
    | _ => .ok (s, r, [])

/-- The enemy phases a single entity goes through: one `enemyTurn` per
phase, each phase with its own tile grid and light map (the surrounding
game may differ per phase), threading the store, rng and messages. -/
def runPhases (playerId eid : Nat) (ctxs : List (SMap Tile × LightMap)) (s : Store) (r : Rng) :
    Except String (Store × Rng × List Msg) :=
  match ctxs with
  | [] => .ok (s, r, [])
  | ctx :: rest =>
    match enemyTurn ctx.1 ctx.2 playerId s r eid with
    | .error msg => .error msg
    | .ok (s1, r1, ms) =>
      match runPhases playerId eid rest s1 r1 with
      | .error msg => .error msg
      | .ok (s2, r2, ms2) => .ok (s2, r2, ms ++ ms2)

/-- The internal state of the external seeded random source
(`ROT.RNG.getState()`/`setState`).  Modelled from the spec: the Random
Source is a "seeded uniform-integer and weighted-choice generator" that
"must be save/restorable (captures/restores internal state)" and is not
part of this repository; it is an Alea-style generator whose draws are a
pure function of the captured state. -/
structure RngState where
  s0 : ℚ
  s1 : ℚ
  s2 : ℚ
  c : ℤ
deriving DecidableEq, Repr

/-- Modelled from the spec: one deterministic draw of the external
random source as a pure function of its captured internal state. -/
def rngStep (st : RngState) : ℚ × RngState :=
  let t : ℚ := 2091639 * st.s0 + (st.c : ℚ) * (1 / 4294967296)
  let cNew : ℤ := ⌊t⌋
  let s2New : ℚ := t - (cNew : ℚ)
  (s2New, { s0 := st.s1, s1 := st.s2, s2 := s2New, c := cNew })

/-- The next `n` draws the generator will produce from a given state. -/
def rngDraws : Nat → RngState → List ℚ
  | 0, _ => []
  | n + 1, st =>
    let (v, st2) := rngStep st
    v :: rngDraws n st2

/-- The global mutable state the save/load codec captures. -/
structure GlobalState where
  entities : Store
  playerId : Nat
  tileMap : TileMap
  messages : List Msg
  nextEntityId : Nat
  rngState : RngState
deriving DecidableEq, Repr

/-- The flat record `serializeGlobalState` builds (the JSON blob's
data).  `Array.from(entities)` lists the Map as `[id, entity]` pairs;
all captured fields are plain JSON data (functions and the fov object
do not survive `JSON.stringify` and are rebuilt on load). -/
structure SavedBlob where
  entities : List (Nat × Entity)
  playerId : Nat
  tileMap : TileMap
  messages : List Msg
  nextEntityId : Nat
  rngState : RngState
deriving DecidableEq, Repr

/-- `serializeGlobalState()`. -/
def serializeGlobalState (g : GlobalState) : SavedBlob :=
  { entities := g.entities.map (fun e => (e.id, e)),
    playerId := g.playerId,
    tileMap := g.tileMap,
    messages := g.messages,
    nextEntityId := g.nextEntityId,
    rngState := g.rngState }

/-- `deserializeGlobalState(json)`: rebuild the entity Map (reattaching
the property-forwarding prototype), rebind the player by saved id,
restore the map (then `updateTileMapFov` rebinds the external fov),
replace the message log, and reset the random source's state. -/
def deserializeGlobalState (blob : SavedBlob) : GlobalState :=
  { entities := blob.entities.map (fun kv => kv.2),
    playerId := blob.playerId,
    tileMap := blob.tileMap,
    messages := blob.messages,
    nextEntityId := blob.nextEntityId,
    rngState := blob.rngState }

/-! ## Concrete fixtures

Small closed game states used by the witness theorems and by the
failing-input theorem; the stats follow the spec's worked example
(player with power 5 and defense 2 attacking an orc with 10 hp and
defense 0). -/

/-- A concrete player: id 1, at (1,5), 30/30 hp, power 5, defense 2. -/
def playerFix : Entity :=
  { id := 1, type := .player, name := "player", location := .onMap 1 5,
    hp := some 30, base_max_hp := some 30, base_power := some 5, base_defense := some 2,
    xp := some 0, level := some 1,
    inventory := some (List.replicate 26 none), equipment := some (List.replicate 26 none) }

/-- A concrete orc: id 2, at (2,5), 10 hp, defense 0. -/
def orcFix : Entity :=
  { id := 2, type := .orc, name := "orc", location := .onMap 2 5,
    hp := some 10, base_max_hp := some 10, base_power := some 3, base_defense := some 0,
    ai := some .moveToPlayer }

/-- The two-entity store of the worked example. -/
def storeFix : Store := [playerFix, orcFix]

/-- An orc that was just confused: `{behavior: confused, turns: 10}`. -/
def confusedOrcFix : Entity :=
  { orcFix with id := 3, location := .onMap 3 3, ai := some (.confused 10) }

/-- A store holding only the confused orc. -/
def storeConfFix : Store := [confusedOrcFix]

/-- A plain walkable floor tile. -/
def tileFloorFix : Tile := { walkable := true, wall := false, explored := false }

/-- A one-tile grid with floor at (3,3). -/
def tmConfFix : SMap Tile := ⟨[((3, 3), tileFloorFix)]⟩

/-- Ten enemy phases over that grid, none of them lit. -/
def ctxsConfFix : List (SMap Tile × LightMap) := List.replicate 10 (tmConfFix, ⟨[]⟩)

/-- A player whose 26 inventory slots are all occupied. -/
def fullPlayerFix : Entity :=
  { playerFix with location := .onMap 4 4, inventory := some (List.replicate 26 (some 99)) }

/-- A potion on the ground under the full player. -/
def potionFix : Entity :=
  { id := 4, type := .healingPotion, name := "healing potion", location := .onMap 4 4 }

/-- Store for the full-inventory pickup scenario. -/
def storeFullFix : Store := [fullPlayerFix, potionFix]

/-- A stairs entity under the player at (1,5). -/
def stairsFix : Entity := { id := 5, type := .stairs, name := "stairs", location := .onMap 1 5 }

/-- A potion held in the player's inventory slot 0. -/
def carriedPotionFix : Entity :=
  { id := 6, type := .healingPotion, name := "healing potion", location := .carried 1 0 }

/-- The player about to descend: hp 10, carrying the potion in slot 0. -/
def playerDescFix : Entity :=
  { playerFix with hp := some 10, inventory := some (some 6 :: List.replicate 25 none) }

/-- Store for the descent scenario: player on stairs, an orc on the map,
a potion in the inventory. -/
def storeDescFix : Store := [playerDescFix, orcFix, stairsFix, carriedPotionFix]

/-- A one-room, one-tile digger output for the next level. -/
def roomFix : Room := { left := 5, right := 5, top := 5, bottom := 5, cx := 5, cy := 5 }

/-- The digger output holding just that room. -/
def digFix : DiggerOutput := { tiles := [((5, 5), 0)], rooms := [roomFix] }

/-- The dungeon map being left behind (level 1). -/
def tmOldFix : TileMap := { values := ⟨[]⟩, dungeonLevel := 1, rooms := [] }

/-- An owner with a free inventory slot 1 and one equipped item. -/
def ownerFix : Entity :=
  { id := 7, type := .player, name := "player", location := .onMap 0 0,
    inventory := some [some 9, none, none], equipment := some [some 10] }

/-- An item on the ground at (4,2). -/
def gemFix : Entity :=
  { id := 8, type := .healingPotion, name := "healing potion", location := .onMap 4 2 }

/-- Store for the location-transition round trip. -/
def storeOwnFix : Store := [ownerFix, gemFix]

/-- A light map lighting (1,5) and (2,5) fully. -/
def visFix : LightMap := ⟨[((1, 5), 1), ((2, 5), 1)]⟩

/-- The store expected after the fixture descent: the healed player at
the new room center, the carried potion, and the freshly placed stairs. -/
def storeDescOutFix : Store :=
  [{ playerDescFix with location := .onMap 5 5, hp := some 25 },
   carriedPotionFix,
   { id := 7, type := .stairs, name := "stairs", location := .onMap 5 5 }]

/-- The tile map expected after the fixture descent. -/
def tmNewFix : TileMap :=
  { values := ⟨[((5, 5), { walkable := true, wall := false, explored := false })]⟩,
    dungeonLevel := 2, rooms := [roomFix] }

/-! ## Shared lemmas about the store -/

/-- An entity found by id has that id. -/
theorem lookup_id {s : Store} {j : Nat} {e : Entity} (h : lookup s j = some e) : e.id = j := by
  have := List.find?_some h
  simpa using this

/-- `lookup` through an id-preserving `update`. -/
theorem lookup_update {s : Store} {i : Nat} {f : Entity → Entity}
    (hf : ∀ e, (f e).id = e.id) (j : Nat) :
    lookup (update s i f) j = (lookup s j).map (fun e => if e.id == i then f e else e) := by
  induction s with
  | nil => rfl
  | cons e t ih =>
    have hupd : update (e :: t) i f = (if e.id == i then f e else e) :: update t i f := rfl
    have hid : (if e.id == i then f e else e).id = e.id := by
      by_cases hei : (e.id == i) = true
      · simp [hei, hf e]
      · simp [hei]
    rw [hupd]
    unfold lookup
    by_cases hej : (e.id == j) = true
    · simp only [List.find?_cons, hid, hej]
      rfl
    · have hejf : (e.id == j) = false := by simpa using hej
      simp only [List.find?_cons, hid, hejf]
      exact ih

/-- `lookup` of the updated id. -/
theorem lookup_update_self {s : Store} {i : Nat} {f : Entity → Entity}
    (hf : ∀ e, (f e).id = e.id) :
    lookup (update s i f) i = (lookup s i).map f := by
  rw [lookup_update hf]
  cases h : lookup s i with
  | none => rfl
  | some e =>
    have : e.id = i := lookup_id h
    simp [this]

/-- `lookup` of a different id is unchanged by `update`. -/
theorem lookup_update_ne {s : Store} {i : Nat} {f : Entity → Entity}
    (hf : ∀ e, (f e).id = e.id) {j : Nat} (hij : j ≠ i) :
    lookup (update s i f) j = lookup s j := by
  rw [lookup_update hf]
  cases h : lookup s j with
  | none => rfl
  | some e =>
    have : e.id = j := lookup_id h
    simp [this, hij]

/-- `lookup_update_self` with the update function explicit, for use in
rewrites. -/
theorem lookup_update_self2 (s : Store) (i : Nat) (f : Entity → Entity)
    (hf : ∀ e, (f e).id = e.id) :
    lookup (update s i f) i = (lookup s i).map f := lookup_update_self hf

/-- `lookup_update_ne` with the update function explicit, for use in
rewrites. -/
theorem lookup_update_ne2 (s : Store) (i : Nat) (f : Entity → Entity)
    (hf : ∀ e, (f e).id = e.id) (j : Nat) (hij : j ≠ i) :
    lookup (update s i f) j = lookup s j := lookup_update_ne hf hij

/-- `lookup` over an appended store. -/
theorem lookup_append (s t : Store) (j : Nat) :
    lookup (s ++ t) j = (lookup s j).or (lookup t j) := by
  simp [lookup, List.find?_append]

/-- Setting a list entry to the value it already holds changes nothing. -/
theorem list_set_self {α : Type} {l : List α} {i : Nat} {v : α} (h : l.get? i = some v) :
    l.set i v = l := by
  apply List.ext_get?
  intro n
  by_cases hn : n = i
  · subst hn
    rw [List.get?_set_eq]
    rw [h]
    rfl
  · exact List.get?_set_ne _ _ (fun he => hn he.symm)

/-! ## C2: save/load round trip -/

/-- C2: serializing the global state and deserializing the blob yields a
state with the same entity store, player id, tile map, message log and
next-id counter, and whose random source (restored to the exact saved
internal state) produces the identical next `n` draws. -/
theorem serialize_deserialize_roundtrip (g : GlobalState) (n : Nat) :
    rngDraws n (deserializeGlobalState (serializeGlobalState g)).rngState =
      rngDraws n g.rngState ∧
    (deserializeGlobalState (serializeGlobalState g)).entities = g.entities ∧
    (deserializeGlobalState (serializeGlobalState g)).playerId = g.playerId ∧
    (deserializeGlobalState (serializeGlobalState g)).tileMap = g.tileMap ∧
    (deserializeGlobalState (serializeGlobalState g)).messages = g.messages ∧
    (deserializeGlobalState (serializeGlobalState g)).nextEntityId = g.nextEntityId := by
  refine ⟨rfl, ?_, rfl, rfl, rfl, rfl⟩
  show List.map (fun kv => kv.2) (List.map (fun e => (e.id, e)) g.entities) = g.entities
  rw [List.map_map]
  show List.map (fun e => e) g.entities = g.entities
  exact List.map_id' g.entities

/-! ## C3: leveling thresholds -/

/-- One unfolding of the level-up loop. -/
theorem levelUpLoop_eq (xp level : Nat) :
    levelUpLoop xp level =
      if xp > xpForLevel level then
        ((levelUpLoop xp (level + 1)).1,
         ("Your battle skills grow stronger! You reached level " ++ toString (level + 1) ++ "!",
          "warning") :: (levelUpLoop xp (level + 1)).2)
      else (level, []) := by
  conv_lhs => rw [levelUpLoop]

/-- Characterization of the level-up loop: it stops at the first level
whose threshold the xp total does not exceed, every level it stepped
past had its threshold exceeded, and it emitted one message (one
upgrade prompt) per increment. -/
theorem levelUpLoop_spec (xp level : Nat) :
    level ≤ (levelUpLoop xp level).1 ∧
    xp ≤ xpForLevel (levelUpLoop xp level).1 ∧
    (∀ k, level ≤ k → k < (levelUpLoop xp level).1 → xpForLevel k < xp) ∧
    (levelUpLoop xp level).2.length = (levelUpLoop xp level).1 - level := by
  induction level using levelUpLoop.induct xp with
  | case1 l hgt ih =>
    obtain ⟨ih1, ih2, ih3, ih4⟩ := ih
    rw [levelUpLoop_eq, if_pos hgt]
    dsimp only
    refine ⟨by omega, ih2, ?_, by rw [List.length_cons]; omega⟩
    intro k hk1 hk2
    rcases Nat.eq_or_lt_of_le hk1 with he | hlt
    · subst he; omega
    · exact ih3 k hlt hk2
  | case2 l hle =>
    rw [levelUpLoop_eq, if_neg hle]
    dsimp only
    refine ⟨le_refl _, by omega, ?_, by simp⟩
    intro k h1 h2
    omega

/-- C3: the xp required for level N is `200*N + 150*N*(N+1)/2`, and a
grant of experience to the player adds the amount to its xp and raises
its level once per threshold crossed, re-checked in a loop: the final
level is the first whose threshold is not exceeded, every level stepped
past had its threshold exceeded, and one level-up message (with its
stat-upgrade prompt) is emitted per increment. -/
theorem gainXp_thresholds (s : Store) (playerId : Nat) (p : Entity) (xp level amount : Nat)
    (hp : lookup s playerId = some p) (hxp : p.xp = some xp) (hlvl : p.level = some level) :
    (∀ N, xpForLevel N = 200 * N + 150 * N * (N + 1) / 2) ∧
    (∃ L lvlMsgs,
      gainXp s playerId playerId amount =
        .ok (update s playerId (fun e => { e with xp := some (xp + amount), level := some L }),
             ("You gain " ++ toString amount ++ " experience points.", "info") :: lvlMsgs) ∧
      level ≤ L ∧ xp + amount ≤ xpForLevel L ∧
      (∀ k, level ≤ k → k < L → xpForLevel k < xp + amount) ∧
      lvlMsgs.length = L - level) := by
  constructor
  · intro N
    unfold xpForLevel
    rw [Nat.mul_assoc]
  · have hid : p.id = playerId := lookup_id hp
    obtain ⟨h1, h2, h3, h4⟩ := levelUpLoop_spec (xp + amount) level
    refine ⟨(levelUpLoop (xp + amount) level).1, (levelUpLoop (xp + amount) level).2,
      ?_, h1, h2, h3, h4⟩
    unfold gainXp
    rcases hq : levelUpLoop (xp + amount) level with ⟨L0, M0⟩
    simp only [hp, hxp, hid, ne_eq, not_true_eq_false, if_false, hlvl, Option.getD_some, hq]

/-! ## C1: attack damage -/

/-- An id-preserving, hp-preserving update leaves every entity's hp
reading unchanged. -/
theorem hp_of_update {s : Store} {i : Nat} {f : Entity → Entity}
    (hfid : ∀ e, (f e).id = e.id) (hfhp : ∀ e, (f e).hp = e.hp) (j : Nat) :
    (lookup (update s i f) j).bind Entity.hp = (lookup s j).bind Entity.hp := by
  rw [lookup_update hfid]
  cases h : lookup s j with
  | none => rfl
  | some e =>
    by_cases he : e.id = i
    · simp [he, hfhp e]
    · simp [he]

/-- `corpsify` preserves every entity's hp reading. -/
theorem corpsify_hp (s : Store) (tid j : Nat) :
    (lookup (corpsify s tid) j).bind Entity.hp = (lookup s j).bind Entity.hp := by
  unfold corpsify
  refine hp_of_update ?_ ?_ j
  · intro e; rfl
  · intro e; rfl

/-- `gainXp` never changes any entity's hp. -/
theorem gainXp_hp {s : Store} {pid sid amount : Nat} {s2 : Store} {ms : List Msg}
    (h : gainXp s pid sid amount = .ok (s2, ms)) (j : Nat) :
    (lookup s2 j).bind Entity.hp = (lookup s j).bind Entity.hp := by
  unfold gainXp at h
  cases hl : lookup s sid with
  | none =>
    simp only [hl] at h
    cases h
    rfl
  | some e =>
    simp only [hl] at h
    cases hx : e.xp with
    | none =>
      simp only [hx] at h
      cases h
      rfl
    | some x =>
      simp only [hx] at h
      by_cases hide : e.id ≠ pid
      · rw [if_pos hide] at h; cases h
      · rw [if_neg hide] at h
        cases h
        refine hp_of_update ?_ ?_ j
        · intro e0; rfl
        · intro e0; rfl

/-- The safety condition for `gainXp` transports across an update that
preserves ids and xp fields. -/
theorem xpsafe_update {s : Store} {i : Nat} {f : Entity → Entity}
    (hfid : ∀ e, (f e).id = e.id) (hfxp : ∀ e, (f e).xp = e.xp) {sid pid : Nat}
    (hsafe : ∀ e, lookup s sid = some e → e.xp.isSome → sid = pid) :
    ∀ e, lookup (update s i f) sid = some e → e.xp.isSome → sid = pid := by
  intro e hl hx
  rw [lookup_update hfid] at hl
  cases h0 : lookup s sid with
  | none => rw [h0] at hl; cases hl
  | some e0 =>
    rw [h0] at hl
    simp only [Option.map_some'] at hl
    by_cases he : (e0.id == i) = true
    · rw [if_pos he] at hl
      injection hl with hl2
      subst hl2
      exact hsafe e0 h0 (by rw [← hfxp e0]; exact hx)
    · rw [if_neg he] at hl
      injection hl with hl2
      subst hl2
      exact hsafe e0 h0 hx

/-- A computation shown to be `ok` yields its value. -/
theorem exists_ok_of_isOk {ε α : Type} {x : Except ε α} (h : x.isOk = true) :
    ∃ out, x = .ok out := by
  cases x with
  | ok a => exact ⟨a, rfl⟩
  | error m => cases h

/-- `gainXp` succeeds whenever an xp-bearing source can only be the
player (its error is the `XP for non-player` throw). -/
theorem gainXp_ok (s : Store) (pid sid amount : Nat)
    (hsafe : ∀ e, lookup s sid = some e → e.xp.isSome → sid = pid) :
    ∃ out, gainXp s pid sid amount = .ok out := by
  refine exists_ok_of_isOk ?_
  unfold gainXp
  cases hl : lookup s sid with
  | none => simp only [hl, Except.isOk, Except.toBool]
  | some e =>
    cases hx : e.xp with
    | none => simp only [hl, hx, Except.isOk, Except.toBool]
    | some x =>
      have hide : e.id = pid := by
        rw [lookup_id hl]
        exact hsafe e hl (by rw [hx]; rfl)
      simp only [hl, hx]
      rw [if_neg (by rw [hide]; exact fun hc => hc rfl)]
      simp only [Except.isOk, Except.toBool]

/-- Reading hp through `damageHp` at the target. -/
theorem damageHp_lookup_target (s : Store) (tid : Nat) (amount : Int) :
    lookup (damageHp s tid amount) tid =
      (lookup s tid).map (fun t => { t with hp := t.hp.map (fun h => h - amount) }) := by
  unfold damageHp
  exact lookup_update_self (fun e => rfl)

/-- `damageHp` leaves other entities alone. -/
theorem damageHp_lookup_other (s : Store) (tid : Nat) (amount : Int) {j : Nat} (hj : j ≠ tid) :
    lookup (damageHp s tid amount) j = lookup s j := by
  unfold damageHp
  refine lookup_update_ne ?_ hj
  intro e; rfl

/-- The `gainXp` safety condition survives `damageHp`. -/
theorem damageHp_xpsafe {s : Store} {tid : Nat} {amount : Int} {sid pid : Nat}
    (hsafe : ∀ e, lookup s sid = some e → e.xp.isSome → sid = pid) :
    ∀ e, lookup (damageHp s tid amount) sid = some e → e.xp.isSome → sid = pid := by
  unfold damageHp
  refine xpsafe_update ?_ ?_ hsafe
  · intro e; rfl
  · intro e; rfl

/-- `takeDamage` succeeds under the same safety condition. -/
theorem takeDamage_ok (s : Store) (pid sid tid : Nat) (amount : Int)
    (hsafe : ∀ e, lookup s sid = some e → e.xp.isSome → sid = pid) :
    ∃ out, takeDamage s pid sid tid amount = .ok out := by
  have hsafe3 := @damageHp_xpsafe s tid amount sid pid hsafe
  refine exists_ok_of_isOk ?_
  cases hl : lookup (damageHp s tid amount) tid with
  | none => simp only [takeDamage, hl, Except.isOk, Except.toBool]
  | some t =>
    cases hh : t.hp with
    | none => simp only [takeDamage, hl, hh, Except.isOk, Except.toBool]
    | some hv =>
      by_cases hle : hv ≤ 0
      · cases ha : xpAward t.type with
        | none =>
          simp only [takeDamage, hl, hh, ha]
          rw [if_pos hle]
          simp only [Except.isOk, Except.toBool]
        | some award =>
          obtain ⟨⟨s3, ms3⟩, hg⟩ := gainXp_ok _ pid sid award hsafe3
          simp only [takeDamage, hl, hh, ha]
          rw [if_pos hle, hg]
          simp only [Except.isOk, Except.toBool]
      · simp only [takeDamage, hl, hh]
        rw [if_neg hle]
        simp only [Except.isOk, Except.toBool]

/-- Damaging a target lowers exactly its hp reading by the amount, even
through the death mutation. -/
theorem takeDamage_hp_target {s : Store} {pid sid tid : Nat} {amount : Int}
    {s2 : Store} {ms : List Msg} {hv : Int}
    (h : takeDamage s pid sid tid amount = .ok (s2, ms))
    (hh : (lookup s tid).bind Entity.hp = some hv) :
    (lookup s2 tid).bind Entity.hp = some (hv - amount) := by
  unfold takeDamage at h
  have hhp1 : (lookup (damageHp s tid amount) tid).bind Entity.hp = some (hv - amount) := by
    rw [damageHp_lookup_target]
    cases h0 : lookup s tid with
    | none => rw [h0] at hh; cases hh
    | some t =>
      rw [h0] at hh
      simp only [Option.some_bind] at hh
      simp [hh]
  cases hl : lookup (damageHp s tid amount) tid with
  | none => rw [hl] at hhp1; cases hhp1
  | some t =>
    simp only [hl] at h
    rw [hl] at hhp1
    simp only [Option.some_bind] at hhp1
    cases hh2 : t.hp with
    | none => rw [hh2] at hhp1; cases hhp1
    | some hv2 =>
      rw [hh2] at hhp1
      have hv2eq : hv2 = hv - amount := Option.some.inj hhp1
      simp only [hh2] at h
      by_cases hle : hv2 ≤ 0
      · rw [if_pos hle] at h
        cases hg : xpAward t.type with
        | none =>
          simp only [hg] at h
          cases h
          rw [corpsify_hp, hl]
          simp [hh2, hv2eq]
        | some award =>
          simp only [hg] at h
          cases hgx : gainXp (damageHp s tid amount) pid sid award with
          | error msg => rw [hgx] at h; cases h
          | ok out =>
            rcases out with ⟨s3, ms3⟩
            rw [hgx] at h
            cases h
            rw [corpsify_hp, gainXp_hp hgx, hl]
            simp [hh2, hv2eq]
      · rw [if_neg hle] at h
        cases h
        rw [hl]
        simp [hh2, hv2eq]

/-- Damaging a target leaves every other entity's hp reading unchanged. -/
theorem takeDamage_hp_other {s : Store} {pid sid tid : Nat} {amount : Int}
    {s2 : Store} {ms : List Msg} {j : Nat}
    (h : takeDamage s pid sid tid amount = .ok (s2, ms)) (hj : j ≠ tid) :
    (lookup s2 j).bind Entity.hp = (lookup s j).bind Entity.hp := by
  unfold takeDamage at h
  have hpres : (lookup (damageHp s tid amount) j).bind Entity.hp =
      (lookup s j).bind Entity.hp := by
    rw [damageHp_lookup_other s tid amount hj]
  cases hl : lookup (damageHp s tid amount) tid with
  | none =>
    simp only [hl] at h
    cases h
    exact hpres
  | some t =>
    simp only [hl] at h
    cases hh2 : t.hp with
    | none =>
      simp only [hh2] at h
      cases h
      exact hpres
    | some hv2 =>
      simp only [hh2] at h
      by_cases hle : hv2 ≤ 0
      · rw [if_pos hle] at h
        cases hg : xpAward t.type with
        | none =>
          simp only [hg] at h
          cases h
          rw [corpsify_hp]
          exact hpres
        | some award =>
          simp only [hg] at h
          cases hgx : gainXp (damageHp s tid amount) pid sid award with
          | error msg => rw [hgx] at h; cases h
          | ok out =>
            rcases out with ⟨s3, ms3⟩
            rw [hgx] at h
            cases h
            rw [corpsify_hp, gainXp_hp hgx]
            exact hpres
      · rw [if_neg hle] at h
        cases h
        exact hpres

/-- C1: the damage of an attack is the attacker's effective power minus
the defender's effective defense, where each effective stat is the base
stat plus the summed bonus fields of the entities in the equipment
slots; non-positive damage leaves the whole state unchanged and only
prints the no-damage message, while positive damage lowers the
defender's hp by exactly the damage. -/
theorem attack_spec (s : Store) (playerId : Nat) (a d : Entity) (pw df hv : Int)
    (ha : lookup s a.id = some a) (hd : lookup s d.id = some d)
    (hxs : a.xp.isSome → a.id = playerId)
    (hpw : a.base_power = some pw) (hdf : d.base_defense = some df) (hhp : d.hp = some hv) :
    ((pw + calculateEquipmentBonus s a.equipment (fun p => p.bonus_power)) -
        (df + calculateEquipmentBonus s d.equipment (fun p => p.bonus_defense)) ≤ 0 →
      attack s playerId a.id d.id =
        .ok (s, [(a.name ++ " attacks " ++ d.name ++ " but does no damage.",
                  if a.id == playerId then "player-attack" else "enemy-attack")])) ∧
    (0 < (pw + calculateEquipmentBonus s a.equipment (fun p => p.bonus_power)) -
        (df + calculateEquipmentBonus s d.equipment (fun p => p.bonus_defense)) →
      ∃ s2 ms, attack s playerId a.id d.id = .ok (s2, ms) ∧
        (lookup s2 d.id).bind Entity.hp =
          some (hv - ((pw + calculateEquipmentBonus s a.equipment (fun p => p.bonus_power)) -
            (df + calculateEquipmentBonus s d.equipment (fun p => p.bonus_defense))))) := by
  have hEq : effective_power s a - effective_defense s d =
      (pw + calculateEquipmentBonus s a.equipment (fun p => p.bonus_power)) -
      (df + calculateEquipmentBonus s d.equipment (fun p => p.bonus_defense)) := by
    unfold effective_power effective_defense
    rw [hpw, hdf]
    rfl
  constructor
  · intro hle
    simp only [attack, ha, hd]
    rw [if_neg (by rw [hEq]; omega)]
  · intro hgt
    have hsafe : ∀ e, lookup s a.id = some e → e.xp.isSome → a.id = playerId := by
      intro e hl hx
      rw [ha] at hl
      injection hl with hl2
      subst hl2
      exact hxs hx
    obtain ⟨⟨s3, ms3⟩, hTD⟩ := takeDamage_ok s playerId a.id d.id
      (effective_power s a - effective_defense s d) hsafe
    have hhd : (lookup s d.id).bind Entity.hp = some hv := by
      rw [hd, Option.some_bind, hhp]
    have hhp3 := takeDamage_hp_target hTD hhd
    refine ⟨s3, (a.name ++ " attacks " ++ d.name ++ " for " ++
      toString (effective_power s a - effective_defense s d) ++ " hit points.",
      if a.id == playerId then "player-attack" else "enemy-attack") :: ms3, ?_, ?_⟩
    · simp only [attack, ha, hd]
      rw [if_pos (by rw [hEq]; omega), hTD]
    · rw [hEq] at hhp3
      exact hhp3

/-- Witness for C1 on the spec's worked example: power 5 against
defense 0 and 10 hp deals exactly 5 damage. -/
theorem attack_spec_witness :
    ((5 + calculateEquipmentBonus storeFix playerFix.equipment (fun p => p.bonus_power)) -
        (0 + calculateEquipmentBonus storeFix orcFix.equipment (fun p => p.bonus_defense)) ≤ 0 →
      attack storeFix 1 playerFix.id orcFix.id =
        .ok (storeFix, [(playerFix.name ++ " attacks " ++ orcFix.name ++
                  " but does no damage.",
                  if playerFix.id == 1 then "player-attack" else "enemy-attack")])) ∧
    (0 < (5 + calculateEquipmentBonus storeFix playerFix.equipment (fun p => p.bonus_power)) -
        (0 + calculateEquipmentBonus storeFix orcFix.equipment (fun p => p.bonus_defense)) →
      ∃ s2 ms, attack storeFix 1 playerFix.id orcFix.id = .ok (s2, ms) ∧
        (lookup s2 orcFix.id).bind Entity.hp =
          some (10 - ((5 + calculateEquipmentBonus storeFix playerFix.equipment
              (fun p => p.bonus_power)) -
            (0 + calculateEquipmentBonus storeFix orcFix.equipment
              (fun p => p.bonus_defense))))) :=
  attack_spec storeFix 1 playerFix orcFix 5 0 10 rfl rfl (fun _ => rfl) rfl rfl rfl

/-- Witness for C3 at a concrete grant: 400 xp at level 1 exceeds the
level-1 threshold (350) and settles below the level-2 threshold. -/
theorem gainXp_thresholds_witness :
    (∀ N, xpForLevel N = 200 * N + 150 * N * (N + 1) / 2) ∧
    (∃ L lvlMsgs,
      gainXp storeFix 1 1 400 =
        .ok (update storeFix 1 (fun e => { e with xp := some (0 + 400), level := some L }),
             ("You gain " ++ toString 400 ++ " experience points.", "info") :: lvlMsgs) ∧
      1 ≤ L ∧ 0 + 400 ≤ xpForLevel L ∧
      (∀ k, 1 ≤ k → k < L → xpForLevel k < 0 + 400) ∧
      lvlMsgs.length = L - 1) :=
  gainXp_thresholds storeFix 1 playerFix 0 1 400 rfl rfl rfl

/-! ## C4: unlit monsters stand still -/

/-- C4: in an enemy phase, a live on-map entity with `move_to_player`
behavior whose tile reads 0 (or has no entry) in the light map computed
from the player's location does nothing: its turn returns the store,
the random source and the message log additions exactly unchanged, so
it neither moves nor attacks, whatever its distance to the player. -/
theorem moveToPlayer_unlit_skips (tm : SMap Tile) (lm : LightMap) (playerId : Nat)
    (s : Store) (r : Rng) (eid : Nat) (e : Entity) (ex ey : Int)
    (he : lookup s eid = some e) (hloc : e.location = .onMap ex ey)
    (hai : e.ai = some .moveToPlayer) (hunlit : isLit lm ex ey = false) :
    enemyTurn tm lm playerId s r eid = .ok (s, r, []) := by
  cases hdead : e.dead with
  | true => simp [enemyTurn, he, hdead]
  | false => simp [enemyTurn, he, hdead, hloc, hai, hunlit]

/-- Witness for C4: the orc two tiles from the player does not act under
an empty light map. -/
theorem moveToPlayer_unlit_skips_witness :
    enemyTurn SMap.empty (⟨[]⟩ : LightMap) 1 storeFix ⟨[]⟩ 2 = .ok (storeFix, ⟨[]⟩, []) :=
  moveToPlayer_unlit_skips SMap.empty ⟨[]⟩ 1 storeFix ⟨[]⟩ 2 orcFix 2 5 rfl rfl rfl rfl

/-! ## C6: pickup with a full inventory -/

/-- C6: with an item underfoot and no `null` slot among the inventory
slots, the pickup action returns the store unchanged, emits only the
full-inventory warning, and does not trigger the enemy phase. -/
theorem pickup_full_inventory (s : Store) (playerId : Nat) (p : Entity) (px py : Int)
    (item : Entity) (inv : List (Option Nat))
    (hp : lookup s playerId = some p) (hloc : p.location = .onMap px py)
    (hitem : itemEntityAt s px py = some item)
    (hinv : p.inventory = some inv) (hfull : ∀ o ∈ inv, o.isSome) :
    playerPickupItem s playerId =
      .ok (s, [("You cannot carry any more. Your inventory is full.", "warning")], false) := by
  have hidx : inv.findIdx? (fun slot => slot == none) = none := by
    rw [List.findIdx?_eq_none_iff]
    intro x hx
    have hs := hfull x hx
    cases x with
    | some v => rfl
    | none => cases hs
  simp only [playerPickupItem, hp, hloc, hitem, hinv, hidx]

/-- Witness for C6: a player with 26 occupied slots standing on a potion. -/
theorem pickup_full_inventory_witness :
    playerPickupItem storeFullFix 1 =
      .ok (storeFullFix,
           [("You cannot carry any more. Your inventory is full.", "warning")], false) :=
  pickup_full_inventory storeFullFix 1 fullPlayerFix 4 4 potionFix
    (List.replicate 26 (some 99)) rfl rfl rfl rfl (by decide)

/-! ## C8: moving onto an absent tile -/

/-- C8 (the failing input): a move whose destination coordinate has no
tile record faults with a TypeError — the source reads
`tileMap.get(x, y).walkable` on `undefined` — instead of treating the
absent tile as non-walkable as §3 of the spec requires of every
consumer.  Here the player at (1,5) moves by (-1,0) over an empty tile
map. -/
theorem playerMoveBy_absent_tile_faults :
    playerMoveBy storeFix SMap.empty 1 (-1) 0 =
      .error "TypeError: cannot read walkable of undefined" := rfl

/-! ## C9: slot round trip -/

/-- C9: for an entity on the map at (x,y) and any carried or equipped
slot of an owner that `moveEntityTo` accepts, moving the entity into
the slot and then back to (x,y) leaves the owner's inventory and
equipment arrays exactly as they were before the first move.  (For an
equipped target the operation accepts the location without touching the
slot arrays at all — the source only maintains `carried_by` slots —
so they are trivially restored.) -/
theorem moveEntityTo_slot_roundtrip (s : Store) (eid owner slot : Nat) (e o : Entity)
    (x y : Int) (loc : Location) (s1 s2 : Store)
    (he : lookup s eid = some e) (hloc : e.location = .onMap x y)
    (ho : lookup s owner = some o) (hne : owner ≠ eid)
    (hslot : loc = .carried owner slot ∨ loc = .equipped owner slot)
    (h1 : moveEntityTo s eid loc = .ok s1)
    (h2 : moveEntityTo s1 eid (.onMap x y) = .ok s2) :
    ∃ o2, lookup s2 owner = some o2 ∧ o2.inventory = o.inventory ∧
      o2.equipment = o.equipment := by
  rcases hslot with hcar | hequ
  · -- carried slot
    subst hcar
    simp only [moveEntityTo, he, moveEntityCore, hloc, moveEntityFill] at h1
    have hlo1 : lookup (update s eid
        (fun e => { e with location := Location.carried owner slot })) owner =
        some o := by
      rw [lookup_update_ne2 s eid
          (fun e => { e with location := Location.carried owner slot })
          (fun e => rfl) owner hne, ho]
    simp only [hlo1] at h1
    cases hoinv : o.inventory with
    | none => simp only [hoinv] at h1; cases h1
    | some inv =>
      simp only [hoinv] at h1
      cases hget : inv.get? slot with
      | none => simp only [hget] at h1; cases h1
      | some c =>
        cases c with
        | some cid => simp only [hget] at h1; cases h1
        | none =>
          simp only [hget] at h1
          injection h1 with h1e
          have hkeid : lookup s1 eid =
              some { e with location := Location.carried owner slot } := by
            rw [← h1e,
              lookup_update_ne2 _ owner
                (fun c => { c with inventory := some (inv.set slot (some eid)) })
                (fun c => rfl) eid (Ne.symm hne),
              lookup_update_self2 s eid
                (fun e => { e with location := Location.carried owner slot })
                (fun e => rfl), he]
            rfl
          have hkown : lookup s1 owner =
              some { o with inventory := some (inv.set slot (some eid)) } := by
            rw [← h1e,
              lookup_update_self2 _ owner
                (fun c => { c with inventory := some (inv.set slot (some eid)) })
                (fun c => rfl),
              lookup_update_ne2 s eid
                (fun e => { e with location := Location.carried owner slot })
                (fun e => rfl) owner hne, ho]
            rfl
          simp only [moveEntityTo, hkeid, moveEntityCore, hkown, Option.some_bind] at h2
          have hcond : (inv.set slot (some eid)).get? slot = some (some eid) := by
            rw [List.get?_set_eq, hget]
            rfl
          rw [if_pos hcond] at h2
          simp only [moveEntityFill] at h2
          injection h2 with h2e
          refine ⟨{ o with inventory := some inv }, ?_, rfl, rfl⟩
          have hrestore : (inv.set slot (some eid)).set slot none = inv := by
            rw [List.set_set]
            exact list_set_self hget
          rw [← h2e,
            lookup_update_ne2 _ eid (fun e => { e with location := Location.onMap x y })
              (fun e => rfl) owner hne,
            lookup_update_self2 _ owner
              (fun c =>
                { c with inventory := some ((inv.set slot (some eid)).set slot none) })
              (fun c => rfl),
            hkown]
          simp [hrestore]
  · -- equipped slot: the slot arrays are never touched
    subst hequ
    simp only [moveEntityTo, he, moveEntityCore, hloc, moveEntityFill] at h1
    injection h1 with h1e
    have hkeid : lookup s1 eid =
        some { e with location := Location.equipped owner slot } := by
      rw [← h1e,
        lookup_update_self2 s eid
          (fun e => { e with location := Location.equipped owner slot })
          (fun e => rfl), he]
      rfl
    simp only [moveEntityTo, hkeid, moveEntityCore, moveEntityFill] at h2
    injection h2 with h2e
    refine ⟨o, ?_, rfl, rfl⟩
    rw [← h2e,
      lookup_update_ne2 s1 eid (fun e => { e with location := Location.onMap x y })
        (fun e => rfl) owner hne,
      ← h1e,
      lookup_update_ne2 s eid
        (fun e => { e with location := Location.equipped owner slot })
        (fun e => rfl) owner hne, ho]

/-- Witness for C9: a ground item moved into the owner's free inventory
slot 1 and back restores the slot arrays. -/
theorem moveEntityTo_slot_roundtrip_witness :
    ∃ o2, lookup storeOwnFix 7 = some o2 ∧
      o2.inventory = ownerFix.inventory ∧ o2.equipment = ownerFix.equipment :=
  moveEntityTo_slot_roundtrip storeOwnFix 8 7 1 gemFix ownerFix 4 2
    (Location.carried 7 1) _ storeOwnFix rfl rfl rfl (by decide) (Or.inl rfl) rfl rfl

/-! ## C5: confusion countdown -/

/-- One enemy phase of a confused entity whose decremented counter is
still positive: whatever the random step does, the counter has gone
down by exactly one, no message is printed, and the entity stays alive
and on the map with its name intact. -/
theorem confused_step (tm : SMap Tile) (lm : LightMap) (playerId : Nat) (s : Store)
    (r : Rng) (eid : Nat) (e : Entity) (n : Int) (out : Store × Rng × List Msg)
    (he : lookup s eid = some e) (hai : e.ai = some (.confused n)) (hdead : e.dead = false)
    (hmap : e.location.isOnMap = true) (hgt : 0 < n - 1)
    (hok : enemyTurn tm lm playerId s r eid = .ok out) :
    ∃ e2, lookup out.1 eid = some e2 ∧ e2.ai = some (.confused (n - 1)) ∧
      e2.dead = false ∧ e2.location.isOnMap = true ∧ e2.name = e.name ∧ out.2.2 = [] := by
  cases hml : e.location with
  | carried o i => rw [hml] at hmap; cases hmap
  | equipped o i => rw [hml] at hmap; cases hmap
  | onMap ex ey =>
    simp only [enemyTurn, he, hdead, Bool.false_eq_true, if_false, hml, hai] at hok
    rw [if_pos (by exact hgt)] at hok
    set sx := (randint (-1) 1 r).1 with hsx
    set r1 := (randint (-1) 1 r).2 with hr1
    set sy := (randint (-1) 1 r1).1 with hsy
    set r2 := (randint (-1) 1 r1).2 with hr2
    set f1 : Entity → Entity := fun e => { e with ai := some (AI.confused (n - 1)) } with hf1
    have hk1 : lookup (update s eid f1) eid = some (f1 e) := by
      rw [lookup_update_self2 s eid f1 (fun e => rfl), he]
      rfl
    cases htile : tm.get (ex + sx) (ey + sy) with
    | none => simp only [htile] at hok; cases hok
    | some tile =>
      simp only [htile] at hok
      by_cases hwalk : tile.walkable = true
      · rw [if_pos hwalk] at hok
        cases hblk : blockingEntityAt (update s eid f1) (ex + sx) (ey + sy) with
        | error msg => simp only [hblk] at hok; cases hok
        | ok blk =>
          simp only [hblk] at hok
          cases blk with
          | some b =>
            cases hok
            exact ⟨f1 e, hk1, rfl, hdead, by simp [hf1, hml, Location.isOnMap], rfl, rfl⟩
          | none =>
            cases hmv : moveEntityTo (update s eid f1) eid (.onMap (ex + sx) (ey + sy)) with
            | error msg => simp only [hmv] at hok; cases hok
            | ok s3 =>
              simp only [hmv] at hok
              cases hok
              simp only [moveEntityTo, hk1, hf1, moveEntityCore, hml, moveEntityFill] at hmv
              injection hmv with hmv2
              set f2 : Entity → Entity := fun e => { e with location := Location.onMap (ex + sx) (ey + sy) } with hf2
              refine ⟨f2 (f1 e), ?_, rfl, hdead, rfl, rfl, rfl⟩
              rw [← hmv2]
              have := lookup_update_self2 (update s eid f1) eid f2 (fun e => rfl)
              rw [hf2] at this
              rw [this, hk1]
              rfl
      · rw [if_neg hwalk] at hok
        cases hok
        exact ⟨f1 e, hk1, rfl, hdead, by simp [hf1, hml, Location.isOnMap], rfl, rfl⟩

/-- One enemy phase of a confused entity whose counter has run out: the
behavior reverts to `move_to_player` and exactly the recovery message is
emitted. -/
theorem confused_expire_step (tm : SMap Tile) (lm : LightMap) (playerId : Nat) (s : Store)
    (r : Rng) (eid : Nat) (e : Entity) (n : Int) (out : Store × Rng × List Msg)
    (he : lookup s eid = some e) (hai : e.ai = some (.confused n)) (hdead : e.dead = false)
    (hmap : e.location.isOnMap = true) (hle : n - 1 ≤ 0)
    (hok : enemyTurn tm lm playerId s r eid = .ok out) :
    ∃ e2, lookup out.1 eid = some e2 ∧ e2.ai = some .moveToPlayer ∧
      out.2.2 = [("The " ++ e.name ++ " is no longer confused!", "enemy-attack")] := by
  cases hml : e.location with
  | carried o i => rw [hml] at hmap; cases hmap
  | equipped o i => rw [hml] at hmap; cases hmap
  | onMap ex ey =>
    simp only [enemyTurn, he, hdead, Bool.false_eq_true, if_false, hml, hai] at hok
    rw [if_neg (by omega)] at hok
    set f1 : Entity → Entity := fun e => { e with ai := some (AI.confused (n - 1)) } with hf1
    set g1 : Entity → Entity := fun e => { e with ai := some AI.moveToPlayer } with hg1
    cases hok
    refine ⟨g1 (f1 e), ?_, rfl, rfl⟩
    rw [lookup_update_self2 _ eid g1 (fun e => rfl),
      lookup_update_self2 s eid f1 (fun e => rfl), he]
    rfl

/-- Running k confusion phases with k < n keeps the entity confused,
decrementing once per phase and printing nothing. -/
theorem runPhases_confused_prefix (playerId eid : Nat) :
    ∀ (ctxs : List (SMap Tile × LightMap)) (n : Int) (s : Store) (r : Rng) (e : Entity)
      (s2 : Store) (r2 : Rng) (msgs : List Msg),
      lookup s eid = some e → e.ai = some (.confused n) → e.dead = false →
      e.location.isOnMap = true → (ctxs.length : Int) < n →
      runPhases playerId eid ctxs s r = .ok (s2, r2, msgs) →
      ∃ e2, lookup s2 eid = some e2 ∧ e2.ai = some (.confused (n - ctxs.length)) ∧
        e2.dead = false ∧ e2.location.isOnMap = true ∧ e2.name = e.name ∧ msgs = []
  | [], n, s, r, e, s2, r2, msgs => by
    intro he hai hdead hmap hlt hrun
    simp only [runPhases] at hrun
    cases hrun
    exact ⟨e, he, by simpa using hai, hdead, hmap, rfl, rfl⟩
  | ctx :: rest, n, s, r, e, s2, r2, msgs => by
    intro he hai hdead hmap hlt hrun
    simp only [runPhases] at hrun
    cases hstep : enemyTurn ctx.1 ctx.2 playerId s r eid with
    | error msg => simp only [hstep] at hrun; cases hrun
    | ok out =>
      rcases out with ⟨s1, r1, ms1⟩
      simp only [hstep] at hrun
      cases hrest : runPhases playerId eid rest s1 r1 with
      | error msg => simp only [hrest] at hrun; cases hrun
      | ok out2 =>
        rcases out2 with ⟨s2b, r2b, ms2⟩
        simp only [hrest] at hrun
        cases hrun
        have hlen1 : ((ctx :: rest).length : Int) = (rest.length : Int) + 1 := by
          push_cast [List.length_cons]
          ring
        have hgt : 0 < n - 1 := by
          rw [hlen1] at hlt
          have h0 : (0 : Int) ≤ (rest.length : Int) := Int.natCast_nonneg _
          omega
        obtain ⟨e1, he1, hai1, hdead1, hmap1, hname1, hms1⟩ :=
          confused_step ctx.1 ctx.2 playerId s r eid e n (s1, r1, ms1)
            he hai hdead hmap hgt hstep
        obtain ⟨e2x, he2, hai2, hdead2, hmap2, hname2, hms2⟩ :=
          runPhases_confused_prefix playerId eid rest (n - 1) s1 r1 e1 _ _ _
            he1 hai1 hdead1 hmap1 (by rw [hlen1] at hlt; omega) hrest
        refine ⟨e2x, he2, ?_, hdead2, hmap2, hname2.trans hname1, ?_⟩
        · rw [hai2]
          congr 2
          rw [hlen1]
          ring
        · have hms1b : ms1 = [] := hms1
          rw [hms1b, hms2]
          rfl

/-- Running exactly n confusion phases (the counter reaching zero on the
last) reverts the behavior to `move_to_player` and emits exactly one
recovery message. -/
theorem runPhases_confused_expires (playerId eid : Nat) :
    ∀ (ctxs : List (SMap Tile × LightMap)) (n : Int) (s : Store) (r : Rng) (e : Entity)
      (s2 : Store) (r2 : Rng) (msgs : List Msg),
      lookup s eid = some e → e.ai = some (.confused n) → e.dead = false →
      e.location.isOnMap = true → (ctxs.length : Int) = n → 0 < n →
      runPhases playerId eid ctxs s r = .ok (s2, r2, msgs) →
      ∃ e2, lookup s2 eid = some e2 ∧ e2.ai = some .moveToPlayer ∧
        msgs = [("The " ++ e.name ++ " is no longer confused!", "enemy-attack")]
  | [], n, s, r, e, s2, r2, msgs => by
    intro he hai hdead hmap hlen hpos hrun
    exfalso
    rw [List.length_nil] at hlen
    omega
  | ctx :: rest, n, s, r, e, s2, r2, msgs => by
    intro he hai hdead hmap hlen hpos hrun
    simp only [runPhases] at hrun
    cases hstep : enemyTurn ctx.1 ctx.2 playerId s r eid with
    | error msg => simp only [hstep] at hrun; cases hrun
    | ok out =>
      rcases out with ⟨s1, r1, ms1⟩
      simp only [hstep] at hrun
      cases hrest : runPhases playerId eid rest s1 r1 with
      | error msg => simp only [hrest] at hrun; cases hrun
      | ok out2 =>
        rcases out2 with ⟨s2b, r2b, ms2⟩
        simp only [hrest] at hrun
        cases hrun
        have hlen1 : ((ctx :: rest).length : Int) = (rest.length : Int) + 1 := by
          push_cast [List.length_cons]
          ring
        cases hr0 : rest with
        | nil =>
          subst hr0
          -- one phase left: the counter expires now
          have hn1 : n = 1 := by
            rw [hlen1] at hlen
            simp only [List.length_nil] at hlen
            omega
          obtain ⟨e2, he2, hai2, hms1⟩ :=
            confused_expire_step ctx.1 ctx.2 playerId s r eid e n (s1, r1, ms1)
              he hai hdead hmap (by omega) hstep
          simp only [runPhases] at hrest
          cases hrest
          have hms1b : ms1 =
              [("The " ++ e.name ++ " is no longer confused!", "enemy-attack")] := hms1
          exact ⟨e2, he2, hai2, by rw [hms1b]; simp⟩
        | cons c2 rest2 =>
          subst hr0
          have hgt : 0 < n - 1 := by
            rw [hlen1] at hlen
            have h0 : (0 : Int) ≤ ((c2 :: rest2).length : Int) := Int.natCast_nonneg _
            have h1 : (1 : Int) ≤ ((c2 :: rest2).length : Int) := by
              push_cast [List.length_cons]
              omega
            omega
          obtain ⟨e1, he1, hai1, hdead1, hmap1, hname1, hms1⟩ :=
            confused_step ctx.1 ctx.2 playerId s r eid e n (s1, r1, ms1)
              he hai hdead hmap hgt hstep
          obtain ⟨e2, he2, hai2, hms2⟩ :=
            runPhases_confused_expires playerId eid (c2 :: rest2) (n - 1) s1 r1 e1
              _ _ _ he1 hai1 hdead1 hmap1 (by rw [hlen1] at hlen; omega) (by omega)
              hrest
          refine ⟨e2, he2, hai2, ?_⟩
          have hms1b : ms1 = [] := hms1
          rw [hms1b, hms2, hname1]
          rfl

/-- C5: an entity that a confusion scroll left with
`{behavior: confused, turns: 10}` and that stays alive and on the map
has its counter decremented exactly once per enemy phase (after k < 10
phases it reads `confused (10-k)` with no message emitted, whatever the
random steps did), and on the 10th phase — the counter reaching zero —
its behavior reverts to `move_to_player` with exactly one recovery
message emitted over the whole ten phases. -/
theorem confusion_ten_phases (playerId eid : Nat) (s : Store) (r : Rng) (e : Entity)
    (ctxs : List (SMap Tile × LightMap)) (s2 : Store) (r2 : Rng) (msgs : List Msg)
    (he : lookup s eid = some e) (hai : e.ai = some (.confused 10))
    (hdead : e.dead = false) (hmap : e.location.isOnMap = true)
    (hlen : ctxs.length = 10)
    (hrun : runPhases playerId eid ctxs s r = .ok (s2, r2, msgs)) :
    (∃ e2, lookup s2 eid = some e2 ∧ e2.ai = some .moveToPlayer) ∧
    msgs = [("The " ++ e.name ++ " is no longer confused!", "enemy-attack")] ∧
    (∀ k, k < 10 → ∀ sk rk mk,
      runPhases playerId eid (ctxs.take k) s r = .ok (sk, rk, mk) →
      ∃ ek, lookup sk eid = some ek ∧ ek.ai = some (.confused (10 - (k : Int))) ∧ mk = []) := by
  obtain ⟨e2, he2, hai2, hmsgs⟩ :=
    runPhases_confused_expires playerId eid ctxs 10 s r e s2 r2 msgs
      he hai hdead hmap (by rw [hlen]; rfl) (by norm_num) hrun
  refine ⟨⟨e2, he2, hai2⟩, hmsgs, ?_⟩
  intro k hk sk rk mk hrunk
  have hlk : (ctxs.take k).length = k := by
    rw [List.length_take, hlen]
    omega
  obtain ⟨ek, hek, haik, _, _, _, hmk⟩ :=
    runPhases_confused_prefix playerId eid (ctxs.take k) 10 s r e sk rk mk
      he hai hdead hmap (by rw [hlk]; omega) hrunk
  refine ⟨ek, hek, ?_, hmk⟩
  rw [haik, hlk]

/-- Witness for C5: the confused orc over ten phases with a walkable
tile and central random steps — every phase decrements, the tenth
reverts and prints the recovery line. -/
theorem confusion_ten_phases_witness :
    (∃ e2, lookup [{ confusedOrcFix with ai := some AI.moveToPlayer }] 3 = some e2 ∧
      e2.ai = some AI.moveToPlayer) ∧
    [(("The " ++ confusedOrcFix.name ++ " is no longer confused!", "enemy-attack") : Msg)] =
      [("The " ++ confusedOrcFix.name ++ " is no longer confused!", "enemy-attack")] ∧
    (∀ k, k < 10 → ∀ sk rk mk,
      runPhases 1 3 (ctxsConfFix.take k) storeConfFix ⟨[]⟩ = .ok (sk, rk, mk) →
      ∃ ek, lookup sk 3 = some ek ∧ ek.ai = some (.confused (10 - (k : Int))) ∧ mk = []) :=
  confusion_ten_phases 1 3 storeConfFix ⟨[]⟩ confusedOrcFix ctxsConfFix
    [{ confusedOrcFix with ai := some AI.moveToPlayer }] ⟨[]⟩
    [("The " ++ confusedOrcFix.name ++ " is no longer confused!", "enemy-attack")]
    rfl rfl rfl rfl rfl rfl

/-! ## C10: fireball area includes the caster, lightning excludes it -/

/-- Bind over `Except` at an `ok`. -/
theorem except_bind_ok {α β : Type} (a : α) (f : α → Except String β) :
    (Except.ok a >>= f : Except String β) = f a := rfl

/-- Bind over `Except` at an `error`. -/
theorem except_bind_error {α β : Type} (m : String) (f : α → Except String β) :
    ((Except.error m : Except String α) >>= f) = .error m := rfl

/-- The burn loop leaves the hp of an entity none of the burned targets
identify unchanged. -/
theorem fireball_fold_skip (pid cid jid : Nat) :
    ∀ (l : List Entity) (acc out : Store × List Msg),
      (∀ t ∈ l, t.id ≠ jid) →
      l.foldlM (fireballBurn pid cid) acc = .ok out →
      (lookup out.1 jid).bind Entity.hp = (lookup acc.1 jid).bind Entity.hp
  | [], acc, out => by
    intro hskip hrun
    rw [List.foldlM_nil] at hrun
    cases hrun
    rfl
  | t :: l, acc, out => by
    intro hskip hrun
    rw [List.foldlM_cons] at hrun
    cases hb : fireballBurn pid cid acc t with
    | error m => rw [hb, except_bind_error] at hrun; cases hrun
    | ok acc1 =>
      rw [hb, except_bind_ok] at hrun
      have hne : t.id ≠ jid := hskip t (by simp)
      have hstep : (lookup acc1.1 jid).bind Entity.hp = (lookup acc.1 jid).bind Entity.hp := by
        unfold fireballBurn at hb
        cases htd : takeDamage acc.1 pid cid t.id 25 with
        | error m => rw [htd] at hb; cases hb
        | ok out2 =>
          rcases out2 with ⟨s2, ms2⟩
          rw [htd] at hb
          cases hb
          exact takeDamage_hp_other htd (fun hh => hne hh.symm)
      rw [fireball_fold_skip pid cid jid l acc1 out (fun t2 ht2 => hskip t2 (by simp [ht2]))
        hrun]
      exact hstep

/-- The burn loop lowers the hp of a target appearing once by exactly
25. -/
theorem fireball_fold_hit (pid cid : Nat) (e : Entity) (l1 l2 : List Entity)
    (acc out : Store × List Msg) (h0 : Int)
    (hskip1 : ∀ t ∈ l1, t.id ≠ e.id) (hskip2 : ∀ t ∈ l2, t.id ≠ e.id)
    (hhp : (lookup acc.1 e.id).bind Entity.hp = some h0)
    (hrun : (l1 ++ e :: l2).foldlM (fireballBurn pid cid) acc = .ok out) :
    (lookup out.1 e.id).bind Entity.hp = some (h0 - 25) := by
  rw [List.foldlM_append] at hrun
  cases h1 : l1.foldlM (fireballBurn pid cid) acc with
  | error m => rw [h1, except_bind_error] at hrun; cases hrun
  | ok acc1 =>
    rw [h1, except_bind_ok, List.foldlM_cons] at hrun
    have hhp1 : (lookup acc1.1 e.id).bind Entity.hp = some h0 := by
      rw [fireball_fold_skip pid cid e.id l1 acc acc1 hskip1 h1]
      exact hhp
    cases hb : fireballBurn pid cid acc1 e with
    | error m => rw [hb, except_bind_error] at hrun; cases hrun
    | ok acc2 =>
      rw [hb, except_bind_ok] at hrun
      have hhp2 : (lookup acc2.1 e.id).bind Entity.hp = some (h0 - 25) := by
        unfold fireballBurn at hb
        cases htd : takeDamage acc1.1 pid cid e.id 25 with
        | error m => rw [htd] at hb; cases hb
        | ok out2 =>
          rcases out2 with ⟨s2, ms2⟩
          rw [htd] at hb
          cases hb
          exact takeDamage_hp_target htd hhp1
      rw [fireball_fold_skip pid cid e.id l2 acc2 out hskip2 hrun]
      exact hhp2

/-- Splitting a list around a member whose id is unique in it. -/
theorem mem_split_unique_id {l : List Entity} {c : Entity}
    (hmem : c ∈ l) (hnodup : (l.map Entity.id).Nodup) :
    ∃ l1 l2, l = l1 ++ c :: l2 ∧ (∀ t ∈ l1, t.id ≠ c.id) ∧ (∀ t ∈ l2, t.id ≠ c.id) := by
  obtain ⟨l1, l2, hsplit⟩ := List.append_of_mem hmem
  refine ⟨l1, l2, hsplit, ?_, ?_⟩
  · intro t ht heq
    rw [hsplit, List.map_append, List.map_cons, List.nodup_middle, List.nodup_cons] at hnodup
    exact hnodup.1 (List.mem_append_left _ (heq ▸ List.mem_map_of_mem Entity.id ht))
  · intro t ht heq
    rw [hsplit, List.map_append, List.map_cons, List.nodup_middle, List.nodup_cons] at hnodup
    exact hnodup.1 (List.mem_append_right _ (heq ▸ List.mem_map_of_mem Entity.id ht))

/-- C10: the fireball's area of effect does not exclude the caster — any
live entity with hp that is on the map, visible from both the caster and
the target point and within radius 3 of the point (the caster itself
included when it stands that close) is burned for exactly 25 — whereas
the lightning scroll's candidate list excludes the caster by
construction. -/
theorem fireball_area_hits_caster (s : Store) (playerId casterId : Nat) (e : Entity)
    (visCaster visPoint : LightMap) (x y ex ey : Int) (h0 : Int)
    (he : lookup s e.id = some e)
    (hnodup : (s.map Entity.id).Nodup)
    (hloc : e.location = .onMap ex ey) (hhp : e.hp = some h0) (hdead : e.dead = false)
    (hlit1 : isLit visPoint ex ey = true) (hlit2 : isLit visCaster ex ey = true)
    (hdist : distSq ex ey x y ≤ 3 * 3) (hvalid : isLit visCaster x y = true) :
    (∀ s2 ms, castFireball s playerId casterId visCaster visPoint x y = .ok (true, s2, ms) →
      (lookup s2 e.id).bind Entity.hp = some (h0 - 25)) ∧
    (∀ (s3 : Store) (cid : Nat) (vis : LightMap) (a b : Int),
      ∀ t ∈ lightningTargets s3 cid vis a b, t.id ≠ cid) := by
  constructor
  · intro s2 ms hrun
    have hmemS : e ∈ s := List.mem_of_find?_eq_some he
    have hmemT : e ∈ fireballTargets s visCaster visPoint x y := by
      rw [fireballTargets, List.mem_filter]
      refine ⟨hmemS, ?_⟩
      rw [hloc]
      have h9 : distSq ex ey x y ≤ 9 := by omega
      simp only [hhp, hdead, hlit1, hlit2]
      simp [h9]
    have hnodupT : ((fireballTargets s visCaster visPoint x y).map Entity.id).Nodup :=
      List.Nodup.sublist (List.Sublist.map Entity.id (List.filter_sublist s)) hnodup
    obtain ⟨l1, l2, hsplit, hskip1, hskip2⟩ := mem_split_unique_id hmemT hnodupT
    simp only [castFireball, hvalid, Bool.not_true, Bool.false_eq_true, if_false] at hrun
    cases hfold : (fireballTargets s visCaster visPoint x y).foldlM
        (fireballBurn playerId casterId)
        (s, [("The fireball explodes, burning everything within 3 tiles!",
          "player-attack")]) with
    | error m => rw [hfold] at hrun; cases hrun
    | ok out =>
      rcases out with ⟨os, oms⟩
      simp only [hfold] at hrun
      cases hrun
      rw [hsplit] at hfold
      have hhp0 : (lookup s e.id).bind Entity.hp = some h0 := by
        rw [he, Option.some_bind, hhp]
      exact fireball_fold_hit playerId casterId e l1 l2 _ _ h0 hskip1 hskip2 hhp0 hfold
  · intro s3 cid vis a b t ht
    rw [lightningTargets, List.mem_filter] at ht
    have hpred := ht.2
    by_cases hne : t.id = cid
    · exfalso
      simp only [hne] at hpred
      simp at hpred
    · exact hne

/-- Witness for C10: the player casts the fireball at its own tile and
is burned down from 30 to 5 hp, while the lightning candidate list can
never contain its caster. -/
theorem fireball_area_hits_caster_witness :
    (∀ s2 ms, castFireball storeFix 1 1 visFix visFix 1 5 = .ok (true, s2, ms) →
      (lookup s2 playerFix.id).bind Entity.hp = some (30 - 25)) ∧
    (∀ (s3 : Store) (cid : Nat) (vis : LightMap) (a b : Int),
      ∀ t ∈ lightningTargets s3 cid vis a b, t.id ≠ cid) :=
  fireball_area_hits_caster storeFix 1 1 playerFix visFix visFix 1 5 1 5 30
    rfl (by decide) rfl rfl rfl (by decide) (by decide) (by decide) (by decide)

/-! ## C7: descending the stairs -/

/-- No entity type declares `bonus_max_hp`, so the equipment bonus to
max hp is always zero. -/
theorem bonus_max_hp_zero (s : Store) (eq : Option (List (Option Nat))) :
    calculateEquipmentBonus s eq (fun p => p.bonus_max_hp) = 0 := by
  cases eq with
  | none => rfl
  | some l =>
    show (l.filterMap id).foldl
      (fun sum i => sum + (((lookup s i).map
        (fun e => (props e.type).bonus_max_hp)).getD 0)) 0 = 0
    have hz : ∀ i : Nat,
        (((lookup s i).map (fun e => (props e.type).bonus_max_hp)).getD 0) = 0 := by
      intro i
      cases h : lookup s i with
      | none => rfl
      | some e =>
        simp only [Option.map_some', Option.getD_some]
        cases e.type <;> rfl
    generalize l.filterMap id = ids
    induction ids with
    | nil => rfl
    | cons i rest ih =>
      rw [List.foldl_cons, hz i]
      exact ih

/-- Effective max hp reduces to the base max hp, for every store. -/
theorem effective_max_hp_base (s : Store) (e : Entity) :
    effective_max_hp s e = e.base_max_hp.getD 0 := by
  unfold effective_max_hp
  rw [bonus_max_hp_zero]
  ring

/-- Two members of a store with duplicate-free ids and the same id are
the same entity. -/
theorem mem_id_unique {s : Store} (hnodup : (s.map Entity.id).Nodup) {a b : Entity}
    (ha : a ∈ s) (hb : b ∈ s) (hid : a.id = b.id) : a = b :=
  List.inj_on_of_nodup_map hnodup ha hb hid

/-- A member kept by a filter is found by its id. -/
theorem lookup_filter_mem {s : Store} (hnodup : (s.map Entity.id).Nodup) {e : Entity}
    (hmem : e ∈ s) (pred : Entity → Bool) (hpred : pred e = true) :
    lookup (s.filter pred) e.id = some e := by
  unfold lookup
  cases hfind : List.find? (fun x => x.id == e.id) (s.filter pred) with
  | none =>
    exfalso
    rw [List.find?_eq_none] at hfind
    exact hfind e (List.mem_filter.mpr ⟨hmem, hpred⟩) (by simp)
  | some x =>
    have hx := List.find?_some hfind
    have hxm := List.mem_of_find?_eq_some hfind
    have hxs := (List.mem_filter.mp hxm).1
    have hxid : x.id = e.id := by simpa using hx
    rw [mem_id_unique hnodup hxs hmem hxid]

/-- A member dropped by a filter is no longer found by its id. -/
theorem lookup_filter_dropped {s : Store} (hnodup : (s.map Entity.id).Nodup) {e : Entity}
    (hmem : e ∈ s) (pred : Entity → Bool) (hpred : pred e = false) :
    lookup (s.filter pred) e.id = none := by
  unfold lookup
  rw [List.find?_eq_none]
  intro x hxm hx
  have hxs := (List.mem_filter.mp hxm).1
  have hxid : x.id = e.id := by simpa using hx
  have hxe : x = e := mem_id_unique hnodup hxs hmem hxid
  have hpx := (List.mem_filter.mp hxm).2
  rw [hxe, hpred] at hpx
  exact absurd hpx (by simp)

/-- `lookup` of a low id is unchanged by appending entities with higher
ids. -/
theorem lookup_append_fresh {s : Store} {t : List Entity} {n j : Nat}
    (hj : j ≤ n) (ht : ∀ e2 ∈ t, n < e2.id) :
    lookup (s ++ t) j = lookup s j := by
  rw [lookup_append]
  cases h : lookup s j with
  | some e => rfl
  | none =>
    have : lookup t j = none := by
      unfold lookup
      rw [List.find?_eq_none]
      intro x hx hxj
      have := ht x hx
      have : x.id = j := by simpa using hxj
      omega
    rw [this]
    rfl

/-- A fold of store-extending steps extends the store: the output store
is the input plus a suffix of freshly allocated entities (ids above the
input counter), and the id counter never decreases. -/
theorem foldlM_extends {α : Type}
    (f : (Store × Nat × Rng) → α → Except String (Store × Nat × Rng))
    (hf : ∀ acc a out, f acc a = .ok out →
      ∃ t, out.1 = acc.1 ++ t ∧ (∀ e2 ∈ t, acc.2.1 < e2.id) ∧ acc.2.1 ≤ out.2.1) :
    ∀ (l : List α) (acc out : Store × Nat × Rng), l.foldlM f acc = .ok out →
      ∃ t, out.1 = acc.1 ++ t ∧ (∀ e2 ∈ t, acc.2.1 < e2.id) ∧ acc.2.1 ≤ out.2.1 := by
  intro l
  induction l with
  | nil =>
    intro acc out h
    have hout : acc = out := by
      have h2 : (Except.ok acc : Except String (Store × Nat × Rng)) = .ok out := h
      injection h2
    exact ⟨[], by rw [← hout]; simp, by simp, by rw [← hout]⟩
  | cons a l ih =>
    intro acc out h
    rw [List.foldlM_cons] at h
    cases hfa : f acc a with
    | error msg =>
      rw [hfa, except_bind_error] at h
      exact absurd h (by simp)
    | ok acc2 =>
      rw [hfa, except_bind_ok] at h
      obtain ⟨t1, ht1, hid1, hn1⟩ := hf acc a acc2 hfa
      obtain ⟨t2, ht2, hid2, hn2⟩ := ih acc2 out h
      refine ⟨t1 ++ t2, ?_, ?_, ?_⟩
      · rw [ht2, ht1, List.append_assoc]
      · intro e2 he2
        cases List.mem_append.mp he2 with
        | inl h1 => exact hid1 e2 h1
        | inr h2b => exact lt_of_le_of_lt hn1 (hid2 e2 h2b)
      · omega

/-- One monster-loop iteration extends the store by at most one fresh
entity. -/
theorem monsterLoopStep_extends (room : Room) (chances : List (EntityType × Nat))
    (acc : Store × Nat × Rng) (k : Nat) (out : Store × Nat × Rng)
    (h : monsterLoopStep room chances acc k = .ok out) :
    ∃ t, out.1 = acc.1 ++ t ∧ (∀ e2 ∈ t, acc.2.1 < e2.id) ∧ acc.2.1 ≤ out.2.1 := by
  simp only [monsterLoopStep] at h
  cases hb : blockingEntityAt acc.1 (randint room.left room.right acc.2.2).1
      (randint room.top room.bottom (randint room.left room.right acc.2.2).2).1 with
  | error msg =>
    rw [hb] at h
    exact absurd h (by simp)
  | ok ob =>
    cases ob with
    | some b =>
      simp only [hb] at h
      injection h with h2
      exact ⟨[], by rw [← h2]; simp, by simp, by rw [← h2]⟩
    | none =>
      simp only [hb] at h
      cases hg : getWeightedValue chances
          (randint room.top room.bottom (randint room.left room.right acc.2.2).2).2 with
      | mk oty r2 =>
        simp only [hg] at h
        cases oty with
        | none => exact absurd h (by simp)
        | some ty =>
          simp only [createEntity] at h
          injection h with h2
          refine ⟨_, by rw [← h2], ?_, by rw [← h2]; exact Nat.le_succ _⟩
          intro e2 he2
          have he2e := List.mem_singleton.mp he2
          rw [he2e]
          exact Nat.lt_succ_self _

/-- One item-loop iteration extends the store by at most one fresh
entity. -/
theorem itemLoopStep_extends (room : Room) (chances : List (EntityType × Nat))
    (acc : Store × Nat × Rng) (k : Nat) (out : Store × Nat × Rng)
    (h : itemLoopStep room chances acc k = .ok out) :
    ∃ t, out.1 = acc.1 ++ t ∧ (∀ e2 ∈ t, acc.2.1 < e2.id) ∧ acc.2.1 ≤ out.2.1 := by
  simp only [itemLoopStep] at h
  by_cases hfree : (allEntitiesAt acc.1 (randint room.left room.right acc.2.2).1
      (randint room.top room.bottom (randint room.left room.right acc.2.2).2).1).length = 0
  · rw [if_pos hfree] at h
    cases hg : getWeightedValue chances
        (randint room.top room.bottom (randint room.left room.right acc.2.2).2).2 with
    | mk oty r2 =>
      simp only [hg] at h
      cases oty with
      | none => exact absurd h (by simp)
      | some ty =>
        simp only [createEntity] at h
        injection h with h2
        refine ⟨_, by rw [← h2], ?_, by rw [← h2]; exact Nat.le_succ _⟩
        intro e2 he2
        have he2e := List.mem_singleton.mp he2
        rw [he2e]
        exact Nat.lt_succ_self _
  · rw [if_neg hfree] at h
    injection h with h2
    exact ⟨[], by rw [← h2]; simp, by simp, by rw [← h2]⟩

/-- `populateRoom` only appends fresh entities and advances the id
counter. -/
theorem populateRoom_extends (room : Room) (lvl : Nat) (s : Store) (nextId : Nat) (r : Rng)
    (out : Store × Nat × Rng) (h : populateRoom room lvl s nextId r = .ok out) :
    ∃ t, out.1 = s ++ t ∧ (∀ e2 ∈ t, nextId < e2.id) ∧ nextId ≤ out.2.1 := by
  simp only [populateRoom] at h
  cases hm : (List.range (randint 0
        ((evaluateStepFunction [(1, 2), (4, 3), (6, 5)] lvl : Nat) : Int) r).1.toNat).foldlM
      (monsterLoopStep room [(.orc, 80),
        (.troll, evaluateStepFunction [(3, 15), (5, 30), (7, 60)] lvl)])
      (s, nextId, (randint 0 ((evaluateStepFunction [(1, 2), (4, 3), (6, 5)] lvl : Nat) : Int)
        r).2) with
  | error msg =>
    rw [hm] at h
    exact absurd h (by simp)
  | ok acc =>
    simp only [hm] at h
    obtain ⟨t1, ht1, hid1, hn1⟩ :=
      foldlM_extends _ (monsterLoopStep_extends room _) _ _ _ hm
    obtain ⟨t2, ht2, hid2, hn2⟩ :=
      foldlM_extends _ (itemLoopStep_extends room _) _ _ _ h
    refine ⟨t1 ++ t2, ?_, ?_, ?_⟩
    · rw [ht2]
      show acc.1 ++ t2 = s ++ (t1 ++ t2)
      rw [ht1, List.append_assoc]
    · intro e2 he2
      cases List.mem_append.mp he2 with
      | inl h1 => exact hid1 e2 h1
      | inr h2b => exact lt_of_le_of_lt hn1 (hid2 e2 h2b)
    · have hn1b : nextId ≤ acc.2.1 := hn1
      have hn2b : acc.2.1 ≤ out.2.1 := hn2
      omega

/-- `createEntity` appends a fresh entity: lookups of already allocated
ids are unchanged. -/
theorem lookup_createEntity_le (s : Store) (nid : Nat) (ty : EntityType) (loc : Location)
    (ex : ExtraProps) (j : Nat) (hj : j ≤ nid) :
    lookup (createEntity s nid ty loc ex).1 j = lookup s j := by
  simp only [createEntity]
  refine lookup_append_fresh hj ?_
  intro e2 he2
  have he := List.mem_singleton.mp he2
  rw [he]
  exact Nat.lt_succ_self nid

/-- `createTileMapM` sets the requested dungeon level, leaves every
already allocated non-player entity exactly where the input store had
it, and relocates the player to the center of the first room. -/
theorem createTileMapM_spec (dig : DiggerOutput) (lvl playerId : Nat) (s : Store)
    (nextId : Nat) (r : Rng) (tm2 : TileMap) (s2 : Store) (nextId2 : Nat) (r2 : Rng)
    (p : Entity) (px py : Int)
    (hok : createTileMapM dig lvl playerId s nextId r = .ok (tm2, s2, nextId2, r2))
    (hp : lookup s playerId = some p) (hloc : p.location = .onMap px py)
    (hbound : ∀ e2 ∈ s, e2.id ≤ nextId) :
    tm2.dungeonLevel = lvl ∧
    (∀ j, j ≤ nextId → j ≠ playerId → lookup s2 j = lookup s j) ∧
    ∃ cx cy, lookup s2 playerId = some { p with location := .onMap cx cy } := by
  have hple : playerId ≤ nextId := by
    have h1 := hbound p (List.mem_of_find?_eq_some hp)
    have h2 := lookup_id hp
    omega
  simp only [createTileMapM] at hok
  cases hh : dig.rooms.head? with
  | none =>
    simp only [hh] at hok
    exact absurd hok (by simp)
  | some r0 =>
    simp only [hh] at hok
    cases hl : dig.rooms.getLast? with
    | none =>
      simp only [hl] at hok
      exact absurd hok (by simp)
    | some rLast =>
      simp only [hl] at hok
      have hmove : moveEntityTo s playerId (.onMap r0.cx r0.cy) =
          .ok (update s playerId (fun e => { e with location := .onMap r0.cx r0.cy })) := by
        simp only [moveEntityTo, hp, hloc, moveEntityCore, moveEntityFill]
      simp only [hmove] at hok
      cases hfold : dig.rooms.foldlM
          (fun (acc : Store × Nat × Rng) room => populateRoom room lvl acc.1 acc.2.1 acc.2.2)
          ((createEntity (update s playerId (fun e => { e with location := .onMap r0.cx r0.cy }))
              nextId .stairs (.onMap rLast.cx rLast.cy) {}).1,
           (createEntity (update s playerId (fun e => { e with location := .onMap r0.cx r0.cy }))
              nextId .stairs (.onMap rLast.cx rLast.cy) {}).2, r) with
      | error msg =>
        simp only [hfold] at hok
        exact absurd hok (by simp)
      | ok acc =>
        simp only [hfold] at hok
        injection hok with hok2
        injection hok2 with htm hok3
        injection hok3 with hs2 hok4
        injection hok4 with hn2 hr2
        obtain ⟨t, ht, hid, hn⟩ := foldlM_extends _
          (fun a b out hstep => populateRoom_extends b lvl a.1 a.2.1 a.2.2 out hstep)
          dig.rooms _ acc hfold
        have htb : acc.1 =
            (createEntity (update s playerId (fun e => { e with location := .onMap r0.cx r0.cy }))
              nextId .stairs (.onMap rLast.cx rLast.cy) {}).1 ++ t := ht
        have hidb : ∀ e2 ∈ t, nextId + 1 < e2.id := hid
        have hsub : ∀ j, j ≤ nextId → j ≠ playerId → lookup s2 j = lookup s j := by
          intro j hj hjne
          rw [← hs2, htb, lookup_append_fresh (Nat.le_succ_of_le hj) hidb,
            lookup_createEntity_le _ _ _ _ _ j hj,
            lookup_update_ne2 s playerId
              (fun e => { e with location := Location.onMap r0.cx r0.cy }) (fun e => rfl)
              j hjne]
        have hpl : lookup s2 playerId = some { p with location := .onMap r0.cx r0.cy } := by
          rw [← hs2, htb, lookup_append_fresh (Nat.le_succ_of_le hple) hidb,
            lookup_createEntity_le _ _ _ _ _ playerId hple,
            lookup_update_self2 s playerId
              (fun e => { e with location := Location.onMap r0.cx r0.cy }) (fun e => rfl),
            hp]
          rfl
        refine ⟨?_, hsub, r0.cx, r0.cy, hpl⟩
        rw [← htm]

/-- The healing step leaves every other entity alone. -/
theorem healAfterDescent_ne (s : Store) (pid j : Nat) (hj : j ≠ pid) :
    lookup (healAfterDescent s pid) j = lookup s j := by
  simp only [healAfterDescent]
  refine lookup_update_ne2 _ _ _ ?_ j hj
  intro e
  rfl

/-- The healing step adds half of the player's effective max hp,
clamped into `[0, effective max hp]`. -/
theorem healAfterDescent_self (s : Store) (pid : Nat) (p2 : Entity)
    (h : lookup s pid = some p2) :
    lookup (healAfterDescent s pid) pid =
      some { p2 with hp := p2.hp.map (fun h2 =>
        clamp (h2 + effective_max_hp s p2 / 2) 0 (effective_max_hp s p2)) } := by
  simp only [healAfterDescent, h]
  rw [lookup_update_self2 s pid
    (fun e => { e with hp := e.hp.map (fun h2 =>
      clamp (h2 + effective_max_hp s p2 / 2) 0 (effective_max_hp s p2)) }) (fun e => rfl), h]
  rfl

/-- C7: descending the stairs (with one underfoot) removes every on-map
non-player entity from the store, preserves the player and every
carried/equipped (off-map) entity verbatim, regenerates the dungeon one
level deeper, and heals the player by half of effective max hp, clamped
into `[0, effective max hp]`. -/
theorem playerGoDownStairs_spec (dig : DiggerOutput) (s : Store) (tm : TileMap)
    (playerId nextId : Nat) (r : Rng) (s2 : Store) (tm2 : TileMap) (nextId2 : Nat)
    (r2 : Rng) (ms : List Msg) (p : Entity) (px py : Int)
    (hok : playerGoDownStairs dig s tm playerId nextId r = .ok (s2, tm2, nextId2, r2, ms))
    (hp : lookup s playerId = some p) (hloc : p.location = .onMap px py)
    (hstairs : (allEntitiesAt s px py).any (fun e => (props e.type).stairs) = true)
    (hnodup : (s.map Entity.id).Nodup)
    (hbound : ∀ e2 ∈ s, e2.id ≤ nextId) :
    tm2.dungeonLevel = tm.dungeonLevel + 1 ∧
    (∀ e2 ∈ s, e2.id ≠ playerId → e2.location.isOnMap = true → lookup s2 e2.id = none) ∧
    (∀ e2 ∈ s, e2.id ≠ playerId → e2.location.isOnMap = false → lookup s2 e2.id = some e2) ∧
    (∃ cx cy, lookup s2 playerId =
      some { p with location := .onMap cx cy,
                    hp := p.hp.map (fun h => clamp (h + effective_max_hp s p / 2) 0
                      (effective_max_hp s p)) }) := by
  simp only [playerGoDownStairs, hp, hloc] at hok
  rw [if_pos hstairs] at hok
  have hpid : p.id = playerId := lookup_id hp
  have hpmem : p ∈ s := List.mem_of_find?_eq_some hp
  have hppred : (fun e => e.id == playerId || !e.location.isOnMap) p = true := by
    simp [hpid]
  have hpf : lookup (s.filter (fun e => e.id == playerId || !e.location.isOnMap)) playerId
      = some p := by
    have h3 := lookup_filter_mem hnodup hpmem
      (fun e => e.id == playerId || !e.location.isOnMap) hppred
    rw [hpid] at h3
    exact h3
  have hfb : ∀ e2 ∈ s.filter (fun e => e.id == playerId || !e.location.isOnMap),
      e2.id ≤ nextId := fun e2 he2 => hbound e2 (List.mem_of_mem_filter he2)
  cases hc : createTileMapM dig (tm.dungeonLevel + 1) playerId
      (s.filter (fun e => e.id == playerId || !e.location.isOnMap)) nextId r with
  | error msg =>
    simp only [hc] at hok
    exact absurd hok (by simp)
  | ok out =>
    obtain ⟨tmx, out2⟩ := out
    obtain ⟨sx, out3⟩ := out2
    obtain ⟨nx, rx⟩ := out3
    simp only [hc] at hok
    obtain ⟨hlvl, hpres, cx, cy, hplook⟩ :=
      createTileMapM_spec dig (tm.dungeonLevel + 1) playerId _ nextId r tmx sx nx rx
        p px py hc hpf hloc hfb
    injection hok with hok2
    injection hok2 with hS hok3
    injection hok3 with hT hok4
    injection hok4 with hN hok5
    injection hok5 with hR hM
    refine ⟨?_, ?_, ?_, ?_⟩
    · rw [← hT]
      exact hlvl
    · intro e2 he2 hne hon
      rw [← hS, healAfterDescent_ne sx playerId e2.id hne,
        hpres e2.id (hbound e2 he2) hne]
      exact lookup_filter_dropped hnodup he2 _ (by simp [hon, hne])
    · intro e2 he2 hne hoff
      rw [← hS, healAfterDescent_ne sx playerId e2.id hne,
        hpres e2.id (hbound e2 he2) hne]
      exact lookup_filter_mem hnodup he2 _ (by simp [hoff])
    · refine ⟨cx, cy, ?_⟩
      rw [← hS, healAfterDescent_self sx playerId _ hplook]
      have heq : effective_max_hp sx { p with location := Location.onMap cx cy } =
          effective_max_hp s p := by
        rw [effective_max_hp_base, effective_max_hp_base]
      rw [heq]

/-- C7 witness: the concrete descent of the fixture store — the orc and
the old stairs (on-map) vanish, the carried potion survives verbatim,
the dungeon level rises from 1 to 2, and the player heals from 10 to
`clamp (10 + 30/2) 0 30 = 25`. -/
theorem playerGoDownStairs_spec_witness :
    playerGoDownStairs digFix storeDescFix tmOldFix 1 6 ⟨[]⟩ =
      .ok (storeDescOutFix, tmNewFix, 7, ⟨[]⟩,
        [("You take a moment to rest, and recover your strength.", "welcome")]) ∧
    lookup storeDescFix 1 = some playerDescFix ∧
    playerDescFix.location = .onMap 1 5 ∧
    (allEntitiesAt storeDescFix 1 5).any (fun e => (props e.type).stairs) = true ∧
    (storeDescFix.map Entity.id).Nodup ∧
    (∀ e2 ∈ storeDescFix, e2.id ≤ 6) ∧
    (tmNewFix.dungeonLevel = tmOldFix.dungeonLevel + 1 ∧
     (∀ e2 ∈ storeDescFix, e2.id ≠ 1 → e2.location.isOnMap = true →
        lookup storeDescOutFix e2.id = none) ∧
     (∀ e2 ∈ storeDescFix, e2.id ≠ 1 → e2.location.isOnMap = false →
        lookup storeDescOutFix e2.id = some e2) ∧
     (∃ cx cy, lookup storeDescOutFix 1 =
        some { playerDescFix with location := .onMap cx cy,
                                  hp := playerDescFix.hp.map (fun h =>
                                    clamp (h + effective_max_hp storeDescFix playerDescFix / 2)
                                      0 (effective_max_hp storeDescFix playerDescFix)) })) :=
  ⟨rfl, rfl, rfl, rfl, by decide, by decide,
   playerGoDownStairs_spec digFix storeDescFix tmOldFix 1 6 ⟨[]⟩ storeDescOutFix tmNewFix 7
     ⟨[]⟩ _ playerDescFix 1 5 rfl rfl rfl rfl (by decide) (by decide)⟩
